import Mathlib

/-!
Verification of `src/databricks/labs/ucx/framework/dashboards.py`.

The module is a declarative reconciliation engine: it synchronises a desired
set of dashboard artifacts (dashboards, queries, visualizations, widgets)
against a remote resource service (the Databricks workspace client), using a
persisted state mapping (`state.json`) to make repeated runs idempotent and to
garbage-collect orphaned remote objects.

Shallow embedding conventions:
* Python's mutable object fields (`self._state`, `self._pos`) together with the
  remote world form an explicit state `St`; the monad `M` is state passing with
  Python exception semantics (`Except` results that keep the state accumulated
  before the raise, so that `try/except` resumes with mutations intact).
* The remote `WorkspaceClient` is modelled as a small capability state machine
  (`World`): fresh identifiers from a counter, liveness sets per resource kind,
  the persisted blob, and an append-only event trace recording every remote
  call in order.
* The on-disk definition loader is an external collaborator (spec section 2);
  `create_dashboards` takes the folder tree as a list of `GroupInput`s whose
  query files are already parsed.  The magic-comment parser itself
  (`_parse_magic_comment`) is embedded separately, on the file text.
* Python `dict`s are insertion-ordered association lists; assignment replaces
  the value in place, otherwise appends.
-/

namespace DashboardsPy

/-- Lookup in an insertion-ordered association list (Python `d.get(k)` /
`k in d`). -/
def lookupA {κ ν : Type} [DecidableEq κ] : List (κ × ν) → κ → Option ν
  | [], _ => none
  | (k', v) :: t, k => if k' = k then some v else lookupA t k

/-- Python `d[k] = v`: replace in place if the key is present, else append. -/
def insertA {κ ν : Type} [DecidableEq κ] : List (κ × ν) → κ → ν → List (κ × ν)
  | [], k, v => [(k, v)]
  | (k', v') :: t, k, v => if k' = k then (k, v) :: t else (k', v') :: insertA t k v

/-- Python `del d[k]`: remove the (first) binding of `k`. -/
def eraseA {κ ν : Type} [DecidableEq κ] : List (κ × ν) → κ → List (κ × ν)
  | [], _ => []
  | (k', v') :: t, k => if k' = k then t else (k', v') :: eraseA t k

/-- Keys of an association list. -/
def keysA {κ ν : Type} (l : List (κ × ν)) : List κ := l.map Prod.fst

/-- Python `str.split(sep)` for a single-character separator, over `List Char`. -/
def pySplitChar (sep : Char) : List Char → List (List Char)
  | [] => [[]]
  | c :: rest =>
    if c = sep then [] :: pySplitChar sep rest
    else
      match pySplitChar sep rest with
      | [] => [[c]]
      | p :: ps => (c :: p) :: ps

/-- Python `k.split(":")` on strings. -/
def pySplitColon (s : String) : List String :=
  (pySplitChar ':' s.data).map String.mk

/-- Python tuple unpacking `a, b = l` of a two-element list; raises
`ValueError` otherwise. -/
def unpack2 {α : Type} : List α → Option (α × α)
  | [a, b] => some (a, b)
  | _ => none

/-- Python `str.split(", ")` (the two-character separator used by the magic
comment format), over `List Char`. -/
def splitCommaSpace : List Char → List (List Char)
  | [] => [[]]
  | [c] => [[c]]
  | c1 :: c2 :: rest =>
    if c1 = ',' ∧ c2 = ' ' then [] :: splitCommaSpace rest
    else
      match splitCommaSpace (c2 :: rest) with
      | [] => [[c1]]
      | p :: ps => (c1 :: p) :: ps

/-- Fuelled scanner behind `pyRemoveAll` (the fuel is the input length, which
bounds the number of scan steps). -/
def removeAllGo (pat : List Char) : List Char → Nat → List Char
  | l, 0 => l
  | [], _ + 1 => []
  | c :: rest, fuel + 1 =>
    if pat.isPrefixOf (c :: rest) ∧ pat ≠ [] then
      removeAllGo pat ((c :: rest).drop pat.length) fuel
    else c :: removeAllGo pat rest fuel

/-- Python `s.replace(pat, "")`: delete every (non-overlapping, leftmost)
occurrence of `pat`. -/
def pyRemoveAll (pat s : String) : String :=
  String.mk (removeAllGo pat.data s.data s.data.length)

/-- Python `str.splitlines()` restricted to LF newlines: split on `'\n'` but
with no trailing empty line and `[]` on the empty string. -/
def pySplitlines (s : String) : List String :=
  match s.data with
  | [] => []
  | l =>
    let parts := (pySplitChar '\n' l).map String.mk
    if parts.getLast? = some "" then parts.dropLast else parts

/-- Digit-run parser behind `pyInt`. -/
def digitsToNat (l : List Char) : Option Nat :=
  if l = [] then none
  else
    l.foldl
      (fun acc? c =>
        match acc? with
        | none => none
        | some acc => if c.isDigit then some (acc * 10 + (c.toNat - 48)) else none)
      (some 0)

/-- Python `int(s)` (ASCII digits with optional leading minus sign); `none`
(a `ValueError`) on anything unparseable. -/
def pyInt (s : String) : Option Int :=
  match s.data with
  | [] => none
  | '-' :: rest => (digitsToNat rest).map fun n => -(n : Int)
  | l => (digitsToNat l).map fun n => (n : Int)

/-- Python `str.title()`: upper-case every alphabetic character that follows a
non-alphabetic one, lower-case the other alphabetic characters. -/
def pyTitleGo : List Char → Bool → List Char
  | [], _ => []
  | c :: t, prevAlpha =>
    (if c.isAlpha then (if prevAlpha then c.toLower else c.toUpper) else c)
      :: pyTitleGo t c.isAlpha

/-- Python `str.title()`. -/
def pyTitle (s : String) : String := String.mk (pyTitleGo s.data false)

/-- Python `str.lower()` (character-wise lower-casing). -/
def pyLower (s : String) : String := String.mk (s.data.map Char.toLower)

/-- Python exceptions raised by this module.  `dbErr` is the SDK's
`DatabricksError` carrying its `error_code`. -/
inductive Err : Type
  | dbErr (code : String)
  | jsonErr
  | valErr
  | keyErr (key : String)
  | typeErr
  | synErr (msg : String)
  | stopIter
  | assertErr (msg : String)
deriving DecidableEq

/-- Python `str(err)` as used in `validate`'s message (approximation: the
message payload where there is one, the class name otherwise). -/
def errStr : Err → String
  | .dbErr code => code
  | .jsonErr => "JSONDecodeError"
  | .valErr => "ValueError"
  | .keyErr key => key
  | .typeErr => "TypeError"
  | .synErr msg => msg
  | .stopIter => "StopIteration"
  | .assertErr msg => msg

/-- One remote call issued to the workspace client, in issue order. -/
inductive Event : Type
  | download
  | mkdirs
  | getStatus
  | upload (st : List (String × Nat))
  | dashCreate (id : Nat)
  | dashGet (id : Nat)
  | permSet
  | queryCreate (id : Nat)
  | queryUpdate (id : Nat)
  | queryDelete (id : Nat)
  | queryGet (id : Nat)
  | vizCreate (id : Nat)
  | vizUpdate (id : Nat)
  | vizDelete (id : Nat)
  | widgetCreate (id : Nat)
  | widgetDelete (id : Nat)
  | dataSourcesList
  | warehousesList
deriving DecidableEq

/-- Content of the persisted `state.json` blob in the workspace: absent,
present but not valid JSON, failing to download with some other error code, or
a decoded mapping. -/
inductive Blob : Type
  | missing
  | corrupt
  | failOther (code : String)
  | good (d : List (String × Nat))
deriving DecidableEq

/-- The remote workspace: persisted blob, a fresh-identifier counter, liveness
per resource kind, widgets attached per dashboard, warehouse/data-source
listings, the folder object id, and the trace of issued calls. -/
structure World : Type where
  blob : Blob
  nextId : Nat
  liveQueries : List Nat
  liveViz : List Nat
  liveWidgets : List Nat
  dashWidgets : List (Nat × List Nat)
  warehouses : List Nat
  dataSources : List (Nat × Nat)
  folderObjectId : Nat
  events : List Event
deriving DecidableEq

/-- Full program state: the remote world plus the `DashboardFromFiles` object's
mutable fields (`self._state`, `self._pos`) and its configuration. -/
structure St : Type where
  world : World
  state : List (String × Nat)
  pos : Nat
  warehouseId : Option Nat
  namePfx : String
  host : String
  queryTextCb : Option (String → String)

/-- State-passing with Python exception semantics: mutations made before a
raise survive into the handler. -/
def M (α : Type) : Type := St → Except Err α × St

def mpure {α : Type} (a : α) : M α := fun s => (.ok a, s)

def mbind {α β : Type} (m : M α) (f : α → M β) : M β := fun s =>
  match m s with
  | (.ok a, s') => f a s'
  | (.error e, s') => (.error e, s')

instance : Monad M where
  pure := mpure
  bind := mbind

/-- Raise an exception. -/
def throwE {α : Type} (e : Err) : M α := fun s => (.error e, s)

/-- Lift a pure fallible computation. -/
def liftE {α : Type} (r : Except Err α) : M α := fun s => (r, s)

def getS : M St := fun s => (.ok s, s)

def modifyS (f : St → St) : M Unit := fun s => (.ok (), f s)

/-- Append one remote call to the trace. -/
def emit (e : Event) : M Unit := fun s =>
  (.ok (), { s with world := { s.world with events := s.world.events ++ [e] } })

/-- Python `try/except DatabricksError`. -/
def tryCatchDB {α : Type} (body : M α) (h : String → M α) : M α := fun s =>
  match body s with
  | (.ok a, s') => (.ok a, s')
  | (.error (.dbErr code), s') => h code s'
  | (.error e, s') => (.error e, s')

/-- Python `try/except DatabricksError/except JSONDecodeError` with two
handlers. -/
def tryCatch2 {α : Type} (body : M α) (hdb : String → M α) (hjson : M α) :
    M α := fun s =>
  match body s with
  | (.ok a, s') => (.ok a, s')
  | (.error (.dbErr code), s') => hdb code s'
  | (.error .jsonErr, s') => hjson s'
  | (.error e, s') => (.error e, s')

/-- Python `try/except Exception`. -/
def tryCatchAll {α : Type} (body : M α) (h : Err → M α) : M α := fun s =>
  match body s with
  | (.ok a, s') => (.ok a, s')
  | (.error e, s') => h e s'

/-! Remote client primitives (`self._ws.…`).  Every call is recorded in the
trace; failures carry `DatabricksError` codes. -/

/-- `ws.workspace.download(path)` composed with `json.load`: the blob content
decides between success, not-found, another remote failure, and a JSON decode
failure. -/
def ws_download : M (List (String × Nat)) := do
  emit .download
  let s ← getS
  match s.world.blob with
  | .good d => pure d
  | .missing => throwE (.dbErr "RESOURCE_DOES_NOT_EXIST")
  | .failOther code => throwE (.dbErr code)
  | .corrupt => throwE .jsonErr

/-- `ws.workspace.mkdirs(remote_folder)`. -/
def ws_mkdirs : M Unit := emit .mkdirs

/-- `ws.workspace.get_status(remote_folder)`, yielding `object_id`. -/
def ws_get_status : M Nat := do
  emit .getStatus
  let s ← getS
  pure s.world.folderObjectId

/-- `ws.workspace.upload(path, state_dump, overwrite=True)`: overwrites the
blob. -/
def ws_upload (d : List (String × Nat)) : M Unit := do
  emit (.upload d)
  modifyS fun s => { s with world := { s.world with blob := .good d } }

/-- `ws.queries.get(id)`: liveness probe, fails with `DatabricksError` when the
query no longer exists. -/
def ws_queries_get (id : Nat) : M Unit := do
  emit (.queryGet id)
  let s ← getS
  if id ∈ s.world.liveQueries then pure () else throwE (.dbErr "RESOURCE_DOES_NOT_EXIST")

/-- `ws.queries.create(...)`: returns a fresh identifier. -/
def ws_queries_create (_parent : String) (_dsId : Nat) (_name _text : String) :
    M Nat := fun s =>
  let id := s.world.nextId
  (.ok id, { s with world := { s.world with
    nextId := id + 1
    liveQueries := s.world.liveQueries ++ [id]
    events := s.world.events ++ [.queryCreate id] } })

/-- `ws.queries.update(id, ...)`. -/
def ws_queries_update (id : Nat) (_dsId : Nat) (_name _text : String) : M Unit :=
  emit (.queryUpdate id)

/-- `ws.queries.delete(id)`: fails with `DatabricksError` when the query does
not exist (e.g. already gone). -/
def ws_queries_delete (id : Nat) : M Unit := fun s =>
  let s' := { s with world := { s.world with events := s.world.events ++ [.queryDelete id] } }
  if id ∈ s.world.liveQueries then
    (.ok (), { s' with world := { s'.world with liveQueries := s'.world.liveQueries.erase id } })
  else (.error (.dbErr "RESOURCE_DOES_NOT_EXIST"), s')

/-- `ws.query_visualizations.create(query_id, **viz_args)`. -/
def ws_viz_create (_queryId : Nat) : M Nat := fun s =>
  let id := s.world.nextId
  (.ok id, { s with world := { s.world with
    nextId := id + 1
    liveViz := s.world.liveViz ++ [id]
    events := s.world.events ++ [.vizCreate id] } })

/-- `ws.query_visualizations.update(id, **viz_args)`. -/
def ws_viz_update (id : Nat) : M Unit := emit (.vizUpdate id)

/-- `ws.query_visualizations.delete(id)`. -/
def ws_viz_delete (id : Nat) : M Unit := fun s =>
  let s' := { s with world := { s.world with events := s.world.events ++ [.vizDelete id] } }
  if id ∈ s.world.liveViz then
    (.ok (), { s' with world := { s'.world with liveViz := s'.world.liveViz.erase id } })
  else (.error (.dbErr "RESOURCE_DOES_NOT_EXIST"), s')

/-- `ws.dashboards.create(name, run_as_role=VIEWER, parent=...)`. -/
def ws_dashboards_create (_name _parent : String) : M Nat := fun s =>
  let id := s.world.nextId
  (.ok id, { s with world := { s.world with
    nextId := id + 1
    dashWidgets := s.world.dashWidgets ++ [(id, [])]
    events := s.world.events ++ [.dashCreate id] } })

/-- `ws.dashboards.get(id).widgets`: the widgets attached to the dashboard. -/
def ws_dashboards_get (id : Nat) : M (List Nat) := do
  emit (.dashGet id)
  let s ← getS
  match lookupA s.world.dashWidgets id with
  | some ws => pure ws
  | none => throwE (.dbErr "RESOURCE_DOES_NOT_EXIST")

/-- `ws.dbsql_permissions.set(...)` (dashboards and queries alike). -/
def ws_perm_set : M Unit := emit .permSet

/-- `ws.dashboard_widgets.create(dashboard_id, options, 1, visualization_id)`:
returns a fresh identifier and attaches it to the dashboard. -/
def ws_widgets_create (dashId : Nat) (_row : Int) (_vizId : Nat) : M Nat := do
  let s ← getS
  match lookupA s.world.dashWidgets dashId with
  | none => do
      emit (.widgetCreate s.world.nextId)
      throwE (.dbErr "RESOURCE_DOES_NOT_EXIST")
  | some ws => do
      let id := s.world.nextId
      emit (.widgetCreate id)
      modifyS fun s' => { s' with world := { s'.world with
        nextId := id + 1
        liveWidgets := s'.world.liveWidgets ++ [id]
        dashWidgets := insertA s'.world.dashWidgets dashId (ws ++ [id]) } }
      pure id

/-- `ws.dashboard_widgets.delete(id)`. -/
def ws_widgets_delete (id : Nat) : M Unit := fun s =>
  let s' := { s with world := { s.world with events := s.world.events ++ [.widgetDelete id] } }
  if id ∈ s.world.liveWidgets then
    (.ok (), { s' with world := { s'.world with
      liveWidgets := s'.world.liveWidgets.erase id
      dashWidgets := s'.world.dashWidgets.map fun dw => (dw.1, dw.2.erase id) } })
  else (.error (.dbErr "RESOURCE_DOES_NOT_EXIST"), s')

/-- `ws.data_sources.list()` as the mapping `warehouse_id → data source id`. -/
def ws_data_sources_list : M (List (Nat × Nat)) := do
  emit .dataSourcesList
  let s ← getS
  pure s.world.dataSources

/-- `ws.warehouses.list()` as the list of warehouse ids. -/
def ws_warehouses_list : M (List Nat) := do
  emit .warehousesList
  let s ← getS
  pure s.world.warehouses

/-! Data model: `SimpleQuery`, `VizColumn`, viz/widget option builders. -/

/-- The `SimpleQuery` dataclass. -/
structure SimpleQuery : Type where
  dashboard_ref : String
  name : String
  query : String
  viz : List (String × String)
  widget : List (String × String)
deriving DecidableEq

/-- Property `query_key`. -/
def SimpleQuery.query_key (q : SimpleQuery) : String :=
  q.dashboard_ref ++ "_" ++ q.name ++ ":query_id"

/-- Property `viz_key`. -/
def SimpleQuery.viz_key (q : SimpleQuery) : String :=
  q.dashboard_ref ++ "_" ++ q.name ++ ":viz_id"

/-- Property `widget_key`. -/
def SimpleQuery.widget_key (q : SimpleQuery) : String :=
  q.dashboard_ref ++ "_" ++ q.name ++ ":widget_id"

/-- Property `viz_type` (`self.viz.get("type", None)`). -/
def SimpleQuery.viz_type (q : SimpleQuery) : Option String := lookupA q.viz "type"

/-- Property `viz_args`: the `viz` attributes minus `type`, order preserved. -/
def SimpleQuery.viz_args (q : SimpleQuery) : List (String × String) :=
  q.viz.filter fun kv => kv.1 ≠ "type"

/-- Python f-string rendering of an `Option String` (`None` prints as
`"None"`). -/
def optRepr : Option String → String
  | none => "None"
  | some s => s

/-- The `VizColumn` dataclass (all fields beyond `name`/`title` keep their
declared defaults at the only construction site). -/
structure VizColumn : Type where
  name : String
  title : String
  type : String := "string"
  imageUrlTemplate : String := "{{ @ }}"
  imageTitleTemplate : String := "{{ @ }}"
  linkUrlTemplate : String := "{{ @ }}"
  linkTextTemplate : String := "{{ @ }}"
  linkTitleTemplate : String := "{{ @ }}"
  linkOpenInNewTab : Bool := true
  displayAs : String := "string"
  visible : Bool := true
  order : Nat := 100000
  allowSearch : Bool := false
  alignContent : String := "left"
  allowHTML : Bool := false
  highlightLinks : Bool := false
  useMonospaceFont : Bool := false
  preserveWhitespace : Bool := false
deriving DecidableEq

/-- A Python value occurring in the built viz options: attribute values stay
raw strings, defaults keep their literal types. -/
inductive PyVal : Type
  | vstr (s : String)
  | vint (n : Int)
  | vbool (b : Bool)
  | vnone
deriving DecidableEq

/-- A keyword value that falls back to a default when the argument is
absent. -/
def pyValD (v : Option String) (dflt : PyVal) : PyVal :=
  match v with
  | some s => .vstr s
  | none => dflt

/-- The dict returned by `_table_viz_args` / `_counter_viz_args`. -/
inductive VizArgs : Type
  | table (name : String) (description : PyVal)
      (itemsPerPage condensed withRowNumber : PyVal) (columns : List VizColumn)
  | counter (name : String) (valueColumn : String)
      (description counterLabel rowNumber targetRowNumber stringDecimal
        stringDecChar stringThouSep tooltipFormat countRow : PyVal)
deriving DecidableEq

/-- Keyword binding of `_table_viz_args(name, columns, *, items_per_page=25,
condensed=True, with_row_number=False, description=None)` applied as
`f(**kwargs)`: an unknown or missing required keyword is a `TypeError`. -/
def _table_viz_args (kwargs : List (String × String)) : Except Err VizArgs :=
  if kwargs.any fun kv => kv.1 ∉
      ["name", "columns", "items_per_page", "condensed", "with_row_number",
        "description"] then
    .error .typeErr
  else
    match lookupA kwargs "name", lookupA kwargs "columns" with
    | some name, some columns =>
      .ok (.table name (pyValD (lookupA kwargs "description") .vnone)
        (pyValD (lookupA kwargs "items_per_page") (.vint 25))
        (pyValD (lookupA kwargs "condensed") (.vbool true))
        (pyValD (lookupA kwargs "with_row_number") (.vbool false))
        (((pySplitChar ',' columns.data).map String.mk).map fun x =>
          { name := x, title := x }))
    | _, _ => .error .typeErr

/-- Keyword binding of `_counter_viz_args(name, value_column, *, ...)` applied
as `f(**kwargs)`. -/
def _counter_viz_args (kwargs : List (String × String)) : Except Err VizArgs :=
  if kwargs.any fun kv => kv.1 ∉
      ["name", "value_column", "description", "counter_label",
        "value_row_number", "target_row_number", "string_decimal",
        "string_decimal_char", "string_thousand_separator", "tooltip_format",
        "count_row"] then
    .error .typeErr
  else
    match lookupA kwargs "name", lookupA kwargs "value_column" with
    | some name, some valueColumn =>
      .ok (.counter name valueColumn
        (pyValD (lookupA kwargs "description") .vnone)
        (pyValD (lookupA kwargs "counter_label") .vnone)
        (pyValD (lookupA kwargs "value_row_number") (.vint 1))
        (pyValD (lookupA kwargs "target_row_number") (.vint 1))
        (pyValD (lookupA kwargs "string_decimal") (.vint 0))
        (pyValD (lookupA kwargs "string_decimal_char") (.vstr "."))
        (pyValD (lookupA kwargs "string_thousand_separator") (.vstr ","))
        (pyValD (lookupA kwargs "tooltip_format") (.vstr "0,0.000"))
        (pyValD (lookupA kwargs "count_row") (.vbool false)))
    | _, _ => .error .typeErr

/-- `_get_viz_options`: dispatch on the declared viz `type`; an unknown kind is
a `SyntaxError` whose message interpolates the query text and the kind. -/
def _get_viz_options (q : SimpleQuery) : Except Err VizArgs :=
  match q.viz_type with
  | some "table" => _table_viz_args q.viz_args
  | some "counter" => _counter_viz_args q.viz_args
  | t => .error (.synErr (q.query ++ ": unknown viz type: " ++ optRepr t))

/-- The `WidgetOptions`/`WidgetPosition` payload built by
`_get_widget_options`. -/
structure WidgetOptions : Type where
  title : String
  description : Option String
  col : Int
  row : Int
  size_x : Int
  size_y : Int
deriving DecidableEq

/-- `int(d.get(k, dflt))` where the dict value (a string) is parsed and the
absent-key default is already an int. -/
def getIntAttr (d : List (String × String)) (k : String) (dflt : Int) :
    Except Err Int :=
  match lookupA d k with
  | none => .ok dflt
  | some v =>
    match pyInt v with
    | some n => .ok n
    | none => .error .valErr

/-- `_get_widget_options`: bumps the run-wide position counter first, then
builds the options; `row` defaults to the bumped counter. -/
def _get_widget_options (q : SimpleQuery) : M WidgetOptions := fun s =>
  let p := s.pos + 1
  let s' := { s with pos := p }
  match getIntAttr q.widget "col" 0 with
  | .error e => (.error e, s')
  | .ok col =>
    match getIntAttr q.widget "row" (Int.ofNat p) with
    | .error e => (.error e, s')
    | .ok row =>
      match getIntAttr q.widget "size_x" 3 with
      | .error e => (.error e, s')
      | .ok sx =>
        match getIntAttr q.widget "size_y" 3 with
        | .error e => (.error e, s')
        | .ok sy =>
          (.ok { title := (lookupA q.widget "title").getD ""
                 description := lookupA q.widget "description"
                 col := col, row := row, size_x := sx, size_y := sy }, s')

/-- `_parse_magic_comment(f, magic_comment, text)`.  `next` on the line
generator raises a bare `StopIteration` when no line starts with the marker;
the `if not viz_comment` guard can only fire on a falsy (empty) line.  A
matched line is stripped of every occurrence of the marker, split on `", "`,
and each piece split on `"="` into a key/value pair (`ValueError` if a piece
does not split into exactly two). -/
def _parse_magic_comment (f : String) (magic_comment : String) (text : String) :
    Except Err (List (String × String)) :=
  match (pySplitlines text).find? (fun l => magic_comment.data.isPrefixOf l.data) with
  | none => .error .stopIter
  | some viz_comment =>
    if viz_comment = "" then
      .error (.synErr (f ++ ": cannot find \"" ++ magic_comment ++ "\" magic comment"))
    else
      ((splitCommaSpace (pyRemoveAll magic_comment viz_comment).data).map String.mk).foldlM
        (fun (acc : List (String × String)) piece =>
          match (pySplitChar '=' piece.data).map String.mk with
          | [k, v] => .ok (insertA acc k v)
          | _ => .error .valErr)
        []

/-! The `DashboardFromFiles` methods, in source order. -/

/-- Python `self._state[k]`: a plain subscript, `KeyError` when absent. -/
def stateGet (k : String) : M Nat := fun s =>
  match lookupA s.state k with
  | some v => (.ok v, s)
  | none => (.error (.keyErr k), s)

/-- Set `self._state[k] = v`. -/
def stateSet (k : String) (v : Nat) : M Unit :=
  modifyS fun s => { s with state := insertA s.state k v }

/-- `dashboard_link(dashboard_ref)`. -/
def dashboard_link (dashboard_ref : String) : M String := do
  let dashboard_id ← stateGet (dashboard_ref ++ ":dashboard_id")
  let s ← getS
  pure (s.host ++ "/sql/dashboards/" ++ toString dashboard_id)

/-- `_install_widget(query, dashboard_ref)`: looks up the dashboard id, builds
the widget options (bumping the position counter), and unconditionally creates
the widget against the recorded visualization id. -/
def _install_widget (q : SimpleQuery) (dashboard_ref : String) : M Unit := do
  let dashboard_id ← stateGet (dashboard_ref ++ ":dashboard_id")
  let widget_options ← _get_widget_options q
  let viz_id ← stateGet q.viz_key
  let wid ← ws_widgets_create dashboard_id widget_options.row viz_id
  stateSet q.widget_key wid

/-- The liveness sweep inside `_installed_query_state`: for every state entry,
unpack the key on `":"` (an uncaught `ValueError` if not exactly two parts);
skip the literal key `"dashboard_id"` and every non-`query_id` kind; probe the
remaining query ids remotely and collect the keys whose probe failed. -/
def sweepCheck : List (String × Nat) → M (List String)
  | [] => mpure []
  | (k, v) :: rest => do
    match unpack2 (pySplitColon k) with
    | none => throwE .valErr
    | some parts =>
      if k = "dashboard_id" then sweepCheck rest
      else if parts.2 ≠ "query_id" then sweepCheck rest
      else do
        let dead ← tryCatchDB (do ws_queries_get v; mpure false) (fun _ => mpure true)
        let tail ← sweepCheck rest
        mpure (if dead then k :: tail else tail)

/-- `for key in to_remove: del self._state[key]`. -/
def eraseKeys (st : List (String × Nat)) (ks : List String) :
    List (String × Nat) :=
  ks.foldl eraseA st

/-- The body of the `try` block in `_installed_query_state`: download and
decode the blob into `self._state`, then drop the entries whose recorded
query id no longer resolves remotely. -/
def loadBody : M Unit := do
  let d ← ws_download
  modifyS fun s => { s with state := d }
  let s ← getS
  let to_remove ← sweepCheck s.state
  modifyS fun s' => { s' with state := eraseKeys s'.state to_remove }

/-- `_installed_query_state()`: run `loadBody` with a not-found download
creating the remote folder instead, any other `DatabricksError` re-raised,
and a JSON decode failure resetting the state to empty; finally resolve the
remote folder's object id into a parent reference. -/
def _installed_query_state : M String := do
  tryCatch2 loadBody
    (fun code =>
      if code ≠ "RESOURCE_DOES_NOT_EXIST" then throwE (.dbErr code)
      else ws_mkdirs)
    (modifyS fun s => { s with state := [] })
  let object_id ← ws_get_status
  pure ("folders/" ++ toString object_id)

/-- The `desired_keys` accumulation in `_store_query_state`: per dashboard the
`dashboard_id` key, then per query its query/viz/widget keys. -/
def queryKeys : List SimpleQuery → List String
  | [] => []
  | q :: t => q.query_key :: q.viz_key :: q.widget_key :: queryKeys t

/-- All desired keys over the `queries_per_dashboard` mapping, in iteration
order. -/
def desiredKeys : List (String × List SimpleQuery) → List String
  | [] => []
  | (ref, qrs) :: t => (ref ++ ":dashboard_id") :: (queryKeys qrs ++ desiredKeys t)

/-- The kind-specific destructor table of `_store_query_state`. -/
def destructorFor (kind : String) : Option (Nat → M Unit) :=
  if kind = "query_id" then some ws_queries_delete
  else if kind = "viz_id" then some ws_viz_delete
  else if kind = "widget_id" then some ws_widgets_delete
  else none

/-- The per-entry loop of `_store_query_state`: desired entries are kept
verbatim; other entries are dropped, and for the three destructible kinds a
remote deletion is attempted whose `DatabricksError` is only logged. -/
def storeLoop (desired : List String) : List (String × Nat) →
    M (List (String × Nat))
  | [] => mpure []
  | (k, v) :: rest => do
    if k ∈ desired then do
      let ns ← storeLoop desired rest
      mpure ((k, v) :: ns)
    else
      match unpack2 (pySplitColon k) with
      | none => throwE .valErr
      | some parts =>
        match destructorFor parts.2 with
        | none => storeLoop desired rest
        | some destr => do
          tryCatchDB (destr v) (fun _code => mpure ())
          storeLoop desired rest

/-- `_store_query_state(queries)`: filter the in-memory state down to the
desired keys (destroying the remote objects behind orphaned query/viz/widget
entries, best effort) and upload the filtered mapping in one overwriting
call. -/
def _store_query_state (queries : List (String × List SimpleQuery)) : M Unit := do
  let desired := desiredKeys queries
  let s ← getS
  let new_state ← storeLoop desired s.state
  ws_upload new_state

/-- The widget-clearing loop in `_install_dashboard`. -/
def deleteWidgetsLoop : List Nat → M Unit
  | [] => mpure ()
  | w :: ws => do
    ws_widgets_delete w
    deleteWidgetsLoop ws

/-- `_install_dashboard(dashboard_name, parent_folder_id, dashboard_ref)`: if
the dashboard key is already recorded, clear its attached widgets and return;
otherwise create the dashboard, grant view access, and record its id. -/
def _install_dashboard (dashboard_name : String) (parent_folder_id : String)
    (dashboard_ref : String) : M Unit := do
  let dashboard_id := dashboard_ref ++ ":dashboard_id"
  let s ← getS
  match lookupA s.state dashboard_id with
  | some did => do
    let widgets ← ws_dashboards_get did
    deleteWidgetsLoop widgets
  | none => do
    let did ← ws_dashboards_create dashboard_name parent_folder_id
    ws_perm_set
    stateSet dashboard_id did

/-- One raw query file as handed over by the external definition loader
(file name, text, and the two parsed magic-comment attribute dicts). -/
structure QueryInput : Type where
  name : String
  query : String
  viz : List (String × String)
  widget : List (String × String)
deriving DecidableEq

/-- `_desired_queries(folder, dashboard_ref)`: builds one `SimpleQuery` per
file, applying the optional query-text callback.  Reading files from disk and
extracting the magic comments is the external loader's part (spec section 2);
`_parse_magic_comment` is embedded separately. -/
def _desired_queries (cb : Option (String → String)) (files : List QueryInput)
    (dashboard_ref : String) : List SimpleQuery :=
  files.map fun f =>
    { dashboard_ref := dashboard_ref
      name := f.name
      query := match cb with | some g => g f.query | none => f.query
      viz := f.viz
      widget := f.widget }

/-- `_install_viz(query)`: resolve the viz options (fatal on an unknown kind),
then update the recorded visualization in place, or create one against the
recorded query id and record it. -/
def _install_viz (q : SimpleQuery) : M Unit := do
  let _viz_args ← liftE (_get_viz_options q)
  let s ← getS
  match lookupA s.state q.viz_key with
  | some vid => ws_viz_update vid
  | none => do
    let qid ← stateGet q.query_key
    let vid ← ws_viz_create qid
    stateSet q.viz_key vid

/-- `_install_query(query, dashboard_name, data_source_id, parent)`: update the
recorded query in place, or create it, grant run permission, and record its
id. -/
def _install_query (q : SimpleQuery) (dashboard_name : String)
    (data_source_id : Nat) (parent : String) : M Unit := do
  let s ← getS
  match lookupA s.state q.query_key with
  | some qid => ws_queries_update qid data_source_id (dashboard_name ++ " - " ++ q.name) q.query
  | none => do
    let qid ← ws_queries_create parent data_source_id (dashboard_name ++ " - " ++ q.name) q.query
    ws_perm_set
    stateSet q.query_key qid

/-- `_dashboard_data_source()`: pick the configured warehouse (or the first
listed one; `ValueError` if neither exists) and look up its data source id
(`KeyError` if the warehouse has none). -/
def _dashboard_data_source : M Nat := do
  let data_sources ← ws_data_sources_list
  let warehouses ← ws_warehouses_list
  let s ← getS
  match s.warehouseId with
  | some w =>
    match lookupA data_sources w with
    | some d => pure d
    | none => throwE (.keyErr (toString w))
  | none =>
    match warehouses with
    | [] => throwE .valErr
    | w :: _ =>
      match lookupA data_sources w with
      | some d => pure d
      | none => throwE (.keyErr (toString w))

/-- One second-level folder of the local tree: the step folder stem, the
dashboard folder stem, and the parsed query files under it. -/
structure GroupInput : Type where
  step : String
  sub : String
  queries : List QueryInput
deriving DecidableEq

/-- The dashboard reference derived from the two folder stems. -/
def refOf (g : GroupInput) : String := pyLower (g.step ++ "_" ++ g.sub)

/-- The per-query loop body inside `create_dashboards`. -/
def installQueriesLoop (dashboard_name : String) (data_source_id : Nat)
    (parent : String) (dashboard_ref : String) : List SimpleQuery → M Unit
  | [] => mpure ()
  | q :: t => do
    _install_query q dashboard_name data_source_id parent
    _install_viz q
    _install_widget q dashboard_ref
    installQueriesLoop dashboard_name data_source_id parent dashboard_ref t

/-- The body of `create_dashboards` for one dashboard folder: derive names and
reference, build the desired queries, reload the persisted state, resolve the
data source, install the dashboard and each query/viz/widget, and return the
reference, desired queries, and recorded dashboard id. -/
def groupStep (g : GroupInput) : M (String × List SimpleQuery × Nat) := do
  let s ← getS
  let main_name := pyTitle g.step
  let sub_name := pyTitle g.sub
  let dashboard_name := s.namePfx ++ " " ++ main_name ++ " (" ++ sub_name ++ ")"
  let dashboard_ref := refOf g
  let desired_queries := _desired_queries s.queryTextCb g.queries dashboard_ref
  let parent_folder_id ← _installed_query_state
  let data_source_id ← _dashboard_data_source
  _install_dashboard dashboard_name parent_folder_id dashboard_ref
  installQueriesLoop dashboard_name data_source_id parent_folder_id dashboard_ref desired_queries
  let did ← stateGet (dashboard_ref ++ ":dashboard_id")
  pure (dashboard_ref, desired_queries, did)

/-- The folder iteration of `create_dashboards`, threading the `dashboards`
and `queries_per_dashboard` accumulators. -/
def groupsLoop : List GroupInput → List (String × Nat) →
    List (String × List SimpleQuery) →
    M (List (String × Nat) × List (String × List SimpleQuery))
  | [], dashboards, qpd => mpure (dashboards, qpd)
  | g :: t, dashboards, qpd => do
    let r ← groupStep g
    groupsLoop t (insertA dashboards r.1 r.2.2) (insertA qpd r.1 r.2.1)

/-- `create_dashboards()`: process every dashboard folder, then persist the
state once, and return the mapping from dashboard reference to dashboard
id. -/
def create_dashboards (gs : List GroupInput) : M (List (String × Nat)) := do
  let r ← groupsLoop gs [] []
  _store_query_state r.2
  pure r.1

/-- The per-query body of `validate`: any exception from the two builders is
re-raised as an `AssertionError` naming the query. -/
def validateQueryLoop : List SimpleQuery → M Unit
  | [] => mpure ()
  | q :: t => do
    tryCatchAll
      (do
        let _ ← liftE (_get_viz_options q)
        let _ ← _get_widget_options q
        mpure ())
      (fun err => throwE (.assertErr ("Error in " ++ q.name ++ ": " ++ errStr err)))
    validateQueryLoop t

/-- The folder iteration of `validate`. -/
def validateGroups : List GroupInput → M Unit
  | [] => mpure ()
  | g :: t => do
    let s ← getS
    validateQueryLoop (_desired_queries s.queryTextCb g.queries (refOf g))
    validateGroups t

/-- `validate()`: dry-run the viz and widget builders over every desired query
of every dashboard folder. -/
def validate (gs : List GroupInput) : M Unit := validateGroups gs

/-! Helper lemmas about the Python string-splitting model. -/

theorem pySplitChar_ne_nil (sep : Char) (l : List Char) :
    pySplitChar sep l ≠ [] := by
  cases l with
  | nil => simp [pySplitChar]
  | cons c rest =>
    simp only [pySplitChar]
    split
    · simp
    · cases h : pySplitChar sep rest <;> simp

theorem pySplitChar_of_not_mem (sep : Char) (l : List Char) (h : sep ∉ l) :
    pySplitChar sep l = [l] := by
  induction l with
  | nil => rfl
  | cons c rest ih =>
    have hc : ¬ c = sep := fun hc => h (hc ▸ List.mem_cons_self c rest)
    have hr : sep ∉ rest := fun hr => h (List.mem_cons_of_mem c hr)
    simp only [pySplitChar, if_neg hc, ih hr]

theorem pySplitChar_append (sep : Char) (a b : List Char) (ha : sep ∉ a) :
    pySplitChar sep (a ++ sep :: b) = a :: pySplitChar sep b := by
  induction a with
  | nil => simp [pySplitChar]
  | cons c rest ih =>
    have hc : ¬ c = sep := fun hc => ha (hc ▸ List.mem_cons_self c rest)
    have hr : sep ∉ rest := fun hr => ha (List.mem_cons_of_mem c hr)
    simp only [List.cons_append, pySplitChar, if_neg hc, List.append_eq, ih hr]

/-- Splitting at the first separator is unambiguous when neither prefix
contains the separator. -/
theorem firstSep_inj (sep : Char) (p q s t : List Char) (hp : sep ∉ p)
    (hq : sep ∉ q) (h : p ++ sep :: s = q ++ sep :: t) : p = q ∧ s = t := by
  induction p generalizing q with
  | nil =>
    cases q with
    | nil => simpa using h
    | cons d qt =>
      exfalso
      simp only [List.nil_append, List.cons_append, List.cons.injEq] at h
      exact hq (h.1 ▸ List.mem_cons_self d qt)
  | cons c pt ih =>
    cases q with
    | nil =>
      exfalso
      simp only [List.nil_append, List.cons_append, List.cons.injEq] at h
      exact hp (h.1.symm ▸ List.mem_cons_self c pt)
    | cons d qt =>
      simp only [List.cons_append, List.cons.injEq] at h
      have hp' : sep ∉ pt := fun hm => hp (List.mem_cons_of_mem c hm)
      have hq' : sep ∉ qt := fun hm => hq (List.mem_cons_of_mem d hm)
      obtain ⟨h1, h2⟩ := ih qt hp' hq' h.2
      exact ⟨by rw [h.1, h1], h2⟩

/-- Splitting at the last separator is unambiguous when neither suffix
contains the separator. -/
theorem lastSep_inj (sep : Char) (a b x y : List Char) (hx : sep ∉ x)
    (hy : sep ∉ y) (h : a ++ sep :: x = b ++ sep :: y) : a = b ∧ x = y := by
  have hrev : x.reverse ++ sep :: a.reverse = y.reverse ++ sep :: b.reverse := by
    have := congrArg List.reverse h
    simpa [List.reverse_append] using this
  have hx' : sep ∉ x.reverse := by simpa using hx
  have hy' : sep ∉ y.reverse := by simpa using hy
  obtain ⟨h1, h2⟩ := firstSep_inj sep x.reverse y.reverse a.reverse b.reverse hx' hy' hrev
  constructor
  · have := congrArg List.reverse h2
    simpa using this
  · have := congrArg List.reverse h1
    simpa using this

/-- A string contains no colon. -/
def noColon (s : String) : Prop := ':' ∉ s.data

instance (s : String) : Decidable (noColon s) := by
  unfold noColon; infer_instance

/-- The state-key grammar of the spec: `derive_key(r, k) = "{r}:{k}"`.
Modelled from the spec: the source spells this key grammar out at each use
site (`SimpleQuery.query_key`/`viz_key`/`widget_key` and the
`f"{ref}:dashboard_id"` keys); the spec names the shared derivation
`derive_key`. -/
def deriveKey (r k : String) : String := r ++ ":" ++ k

/-- The four state-entry kinds. -/
def stateKinds : List String := ["dashboard_id", "query_id", "viz_id", "widget_id"]

theorem deriveKey_data (r k : String) :
    (deriveKey r k).data = r.data ++ ':' :: k.data := by
  simp [deriveKey, String.data_append]

theorem pySplitColon_deriveKey (r k : String) (hr : noColon r) (hk : noColon k) :
    pySplitColon (deriveKey r k) = [r, k] := by
  unfold pySplitColon
  rw [deriveKey_data, pySplitChar_append ':' r.data (k.data) hr,
    pySplitChar_of_not_mem ':' k.data hk]
  simp

theorem deriveKey_inj (r₁ k₁ r₂ k₂ : String) (hk₁ : noColon k₁)
    (hk₂ : noColon k₂) (h : deriveKey r₁ k₁ = deriveKey r₂ k₂) :
    r₁ = r₂ ∧ k₁ = k₂ := by
  have hd : r₁.data ++ ':' :: k₁.data = r₂.data ++ ':' :: k₂.data := by
    have := congrArg String.data h
    rwa [deriveKey_data, deriveKey_data] at this
  obtain ⟨h1, h2⟩ := lastSep_inj ':' r₁.data r₂.data k₁.data k₂.data hk₁ hk₂ hd
  exact ⟨String.ext h1, String.ext h2⟩

theorem stateKinds_noColon : ∀ k ∈ stateKinds, noColon k := by decide

/-- C9: for every reference `r` and kind `k` among
`dashboard_id/query_id/viz_id/widget_id`, the derived state key `"r:k"`
follows the grammar used by `SimpleQuery.query_key`/`viz_key`/`widget_key`,
splits back into `[r, k]` on the `":"` separator (for references without a
colon, as produced from folder/file names), and no two distinct `(r, k)`
pairs collide — the latter for arbitrary references. -/
theorem c9_state_key_roundtrip :
    (∀ q : SimpleQuery,
        q.query_key = deriveKey (q.dashboard_ref ++ "_" ++ q.name) "query_id"
      ∧ q.viz_key = deriveKey (q.dashboard_ref ++ "_" ++ q.name) "viz_id"
      ∧ q.widget_key = deriveKey (q.dashboard_ref ++ "_" ++ q.name) "widget_id")
    ∧ (∀ r k, k ∈ stateKinds → noColon r →
        pySplitColon (deriveKey r k) = [r, k])
    ∧ (∀ r₁ k₁ r₂ k₂, k₁ ∈ stateKinds → k₂ ∈ stateKinds →
        deriveKey r₁ k₁ = deriveKey r₂ k₂ → r₁ = r₂ ∧ k₁ = k₂) := by
  refine ⟨fun q => ⟨?_, ?_, ?_⟩, fun r k hk hr => ?_, fun r₁ k₁ r₂ k₂ h₁ h₂ h => ?_⟩
  · apply String.ext
    simp [SimpleQuery.query_key, deriveKey, String.data_append, List.append_assoc]
  · apply String.ext
    simp [SimpleQuery.viz_key, deriveKey, String.data_append, List.append_assoc]
  · apply String.ext
    simp [SimpleQuery.widget_key, deriveKey, String.data_append, List.append_assoc]
  · exact pySplitColon_deriveKey r k hr (stateKinds_noColon k hk)
  · exact deriveKey_inj r₁ k₁ r₂ k₂ (stateKinds_noColon k₁ h₁)
      (stateKinds_noColon k₂ h₂) h

/-- Witness for C9 at a concrete reference and kind, and a concrete collision
check between two distinct pairs. -/
theorem c9_state_key_roundtrip_witness :
    ("query_id" ∈ stateKinds ∧ noColon "assessment_main")
    ∧ pySplitColon (deriveKey "assessment_main" "query_id")
        = ["assessment_main", "query_id"] :=
  ⟨⟨by decide, by decide⟩,
    c9_state_key_roundtrip.2.1 "assessment_main" "query_id" (by decide) (by decide)⟩

/-! C6: behaviour of `_parse_magic_comment` on files without the marker. -/

theorem magic_foldl_not_syn (pieces : List String)
    (acc : List (String × String)) (m : String) :
    pieces.foldlM
        (fun (acc : List (String × String)) piece =>
          match (pySplitChar '=' piece.data).map String.mk with
          | [k, v] => Except.ok (insertA acc k v)
          | _ => Except.error Err.valErr)
        acc
      ≠ Except.error (Err.synErr m) := by
  induction pieces generalizing acc with
  | nil => simp [pure, Except.pure]
  | cons p t ih =>
    rw [List.foldlM_cons]
    match hp : (pySplitChar '=' p.data).map String.mk with
    | [k, v] =>
      simpa [Bind.bind, Except.bind] using ih (insertA acc k v)
    | [] => simp [Bind.bind, Except.bind]
    | [a] => simp [Bind.bind, Except.bind]
    | a :: b :: c :: rest => simp [Bind.bind, Except.bind]

/-- C6: a definition file none of whose lines starts with the (non-empty)
magic-comment marker makes `_parse_magic_comment` fail with a bare
`StopIteration` carrying no message — the `SyntaxError` that would name the
offending file and the missing marker sits behind an unreachable guard (a
line returned by the prefix filter is never falsy), so no input can produce
it. -/
theorem c6_missing_magic_comment_stop_iteration :
    (∀ f magic_comment text,
        (∀ l ∈ pySplitlines text, ¬ magic_comment.data.isPrefixOf l.data) →
        _parse_magic_comment f magic_comment text = .error .stopIter)
    ∧ (∀ f magic_comment text m, magic_comment ≠ "" →
        _parse_magic_comment f magic_comment text ≠ .error (.synErr m)) := by
  constructor
  · intro f magic_comment text h
    unfold _parse_magic_comment
    have hnone : (pySplitlines text).find?
        (fun l => magic_comment.data.isPrefixOf l.data) = none := by
      rw [List.find?_eq_none]
      intro l hl
      simpa using h l hl
    rw [hnone]
  · intro f magic_comment text m hne
    unfold _parse_magic_comment
    cases hfind : (pySplitlines text).find?
        (fun l => magic_comment.data.isPrefixOf l.data) with
    | none => simp [hfind]
    | some l =>
      have hpre : magic_comment.data.isPrefixOf l.data = true := by
        simpa using List.find?_some hfind
      have hl : ¬ l = "" := by
        intro hl0
        subst hl0
        have hmc0 : magic_comment.data = [] := by
          cases hmc : magic_comment.data with
          | nil => rfl
          | cons c cs => rw [hmc] at hpre; simp [List.isPrefixOf] at hpre
        exact hne (String.ext (by simp [hmc0]))
      simp only [hfind, if_neg hl]
      exact magic_foldl_not_syn _ [] m

/-- Witness for C6 on the concrete failing input: a file `foo.sql` with text
`"SELECT 1"` and the `"-- viz "` marker. -/
theorem c6_missing_magic_comment_stop_iteration_witness :
    (∀ l ∈ pySplitlines "SELECT 1", ¬ ("-- viz " : String).data.isPrefixOf l.data)
    ∧ _parse_magic_comment "foo.sql" "-- viz " "SELECT 1" = .error .stopIter :=
  ⟨by decide,
    c6_missing_magic_comment_stop_iteration.1 "foo.sql" "-- viz " "SELECT 1" (by decide)⟩

deriving instance DecidableEq for Except

/-! Reduction lemmas for the state monad. -/

@[simp] theorem bind_is_mbind {α β : Type} (m : M α) (f : α → M β) :
    (m >>= f) = mbind m f := rfl

@[simp] theorem pure_is_mpure {α : Type} (a : α) : (pure a : M α) = mpure a := rfl

theorem mbind_ok {α β : Type} {m : M α} {s s' : St} {a : α}
    (h : m s = (.ok a, s')) (f : α → M β) : mbind m f s = f a s' := by
  unfold mbind; rw [h]

theorem mbind_err {α β : Type} {m : M α} {s s' : St} {e : Err}
    (h : m s = (.error e, s')) (f : α → M β) : mbind m f s = (.error e, s') := by
  unfold mbind; rw [h]

/-! C4: the three-way error contract of `_installed_query_state`. -/

/-- C4: loading the persisted state has a three-way error contract.  A
not-found blob creates the destination folder and leaves the (initially
empty) in-memory state untouched; a malformed blob resets the state to empty
with the same return value, so with the run's initial empty state the
observable outcome coincides; any other remote failure is re-raised and
aborts, with no state change and no further remote call after the failed
download. -/
theorem c4_state_load_error_contract :
    (∀ s : St, s.world.blob = .missing →
      _installed_query_state s =
        (.ok ("folders/" ++ toString s.world.folderObjectId),
          { s with world := { s.world with
              events := s.world.events ++ [.download, .mkdirs, .getStatus] } }))
    ∧ (∀ s : St, s.world.blob = .corrupt →
      _installed_query_state s =
        (.ok ("folders/" ++ toString s.world.folderObjectId),
          { s with
            state := []
            world := { s.world with
              events := s.world.events ++ [.download, .getStatus] } }))
    ∧ (∀ (s : St) (code : String), s.world.blob = .failOther code →
      code ≠ "RESOURCE_DOES_NOT_EXIST" →
      _installed_query_state s =
        (.error (.dbErr code),
          { s with world := { s.world with
              events := s.world.events ++ [.download] } })) := by
  refine ⟨fun s h => ?_, fun s h => ?_, fun s code h hcode => ?_⟩
  · obtain ⟨⟨blob, nid, lq, lv, lw, dw, whs, ds, foid, ev⟩, st, pos, wid, np, ho, cb⟩ := s
    cases h
    simp [_installed_query_state, loadBody, tryCatch2, ws_download, ws_mkdirs,
      ws_get_status, emit, getS, modifyS, mbind, mpure, throwE]
  · obtain ⟨⟨blob, nid, lq, lv, lw, dw, whs, ds, foid, ev⟩, st, pos, wid, np, ho, cb⟩ := s
    cases h
    simp [_installed_query_state, loadBody, tryCatch2, ws_download, ws_mkdirs,
      ws_get_status, emit, getS, modifyS, mbind, mpure, throwE]
  · obtain ⟨⟨blob, nid, lq, lv, lw, dw, whs, ds, foid, ev⟩, st, pos, wid, np, ho, cb⟩ := s
    cases h
    simp [_installed_query_state, loadBody, tryCatch2, ws_download, ws_mkdirs,
      ws_get_status, emit, getS, modifyS, mbind, mpure, throwE, hcode]

/-- A fresh remote world (no persisted blob, nothing live yet) used by the
concrete scenarios below. -/
def emptyWorld : World :=
  { blob := .missing
    nextId := 1
    liveQueries := []
    liveViz := []
    liveWidgets := []
    dashWidgets := []
    warehouses := [7]
    dataSources := [(7, 99)]
    folderObjectId := 42
    events := [] }

/-- A freshly constructed `DashboardFromFiles` over `emptyWorld`. -/
def baseSt : St :=
  { world := emptyWorld
    state := []
    pos := 0
    warehouseId := some 7
    namePfx := "UCX"
    host := "https://h"
    queryTextCb := none }

/-- Witness for C4: the corrupt-blob branch at a concrete state. -/
theorem c4_state_load_error_contract_witness :
    ({ baseSt with world := { emptyWorld with blob := .corrupt } } : St).world.blob = .corrupt
    ∧ _installed_query_state { baseSt with world := { emptyWorld with blob := .corrupt } } =
      (.ok ("folders/" ++ toString (42 : Nat)),
        { baseSt with world := { emptyWorld with
            blob := .corrupt
            events := [.download, .getStatus] } }) :=
  ⟨rfl, by
    have h := c4_state_load_error_contract.2.1
      { baseSt with world := { emptyWorld with blob := .corrupt } } rfl
    simpa [baseSt, emptyWorld] using h⟩

/-! C3: characterization of `_store_query_state`. -/

/-- The entries kept by the save step: exactly those whose key is desired,
verbatim and in order. -/
def keptState (desired : List String) : List (String × Nat) → List (String × Nat)
  | [] => []
  | (k, v) :: t =>
    if k ∈ desired then (k, v) :: keptState desired t else keptState desired t

/-- The remote deletion issued for an orphan of the given kind. -/
def delEvent (kind : String) (v : Nat) : Event :=
  if kind = "query_id" then .queryDelete v
  else if kind = "viz_id" then .vizDelete v
  else .widgetDelete v

/-- The remote deletions attempted by the save step, in state order: one
kind-specific call per orphaned `query_id`/`viz_id`/`widget_id` entry, none
for other kinds. -/
def orphanEvents (desired : List String) : List (String × Nat) → List Event
  | [] => []
  | (k, v) :: t =>
    if k ∈ desired then orphanEvents desired t
    else
      match unpack2 (pySplitColon k) with
      | none => []
      | some pr =>
        (if pr.2 ∈ ["query_id", "viz_id", "widget_id"] then [delEvent pr.2 v]
          else []) ++ orphanEvents desired t

theorem destructorFor_none (kind : String) :
    destructorFor kind = none ↔ kind ∉ ["query_id", "viz_id", "widget_id"] := by
  unfold destructorFor
  by_cases h1 : kind = "query_id" <;> by_cases h2 : kind = "viz_id" <;>
    by_cases h3 : kind = "widget_id" <;> simp [h1, h2, h3]

/-- Running one orphan destructor under the log-only handler always succeeds,
emits exactly the kind-specific deletion call, and never touches the blob. -/
theorem destr_run (kind : String) (destr : Nat → M Unit) (v : Nat) (s : St)
    (h : destructorFor kind = some destr) :
    ∃ w' : World,
      tryCatchDB (destr v) (fun _ => mpure ()) s = (.ok (), { s with world := w' })
      ∧ w'.events = s.world.events ++ [delEvent kind v]
      ∧ w'.blob = s.world.blob := by
  unfold destructorFor at h
  by_cases h1 : kind = "query_id"
  · rw [if_pos h1] at h
    cases h
    by_cases hv : v ∈ s.world.liveQueries
    · exact ⟨{ s.world with
        events := s.world.events ++ [.queryDelete v]
        liveQueries := (s.world.liveQueries).erase v },
        by simp [tryCatchDB, ws_queries_delete, hv], by simp [delEvent, h1], rfl⟩
    · exact ⟨{ s.world with events := s.world.events ++ [.queryDelete v] },
        by simp [tryCatchDB, ws_queries_delete, hv, mpure], by simp [delEvent, h1], rfl⟩
  · rw [if_neg h1] at h
    by_cases h2 : kind = "viz_id"
    · rw [if_pos h2] at h
      cases h
      by_cases hv : v ∈ s.world.liveViz
      · exact ⟨{ s.world with
          events := s.world.events ++ [.vizDelete v]
          liveViz := (s.world.liveViz).erase v },
          by simp [tryCatchDB, ws_viz_delete, hv], by simp [delEvent, h1, h2], rfl⟩
      · exact ⟨{ s.world with events := s.world.events ++ [.vizDelete v] },
          by simp [tryCatchDB, ws_viz_delete, hv, mpure], by simp [delEvent, h1, h2], rfl⟩
    · rw [if_neg h2] at h
      by_cases h3 : kind = "widget_id"
      · rw [if_pos h3] at h
        cases h
        by_cases hv : v ∈ s.world.liveWidgets
        · exact ⟨{ s.world with
            events := s.world.events ++ [.widgetDelete v]
            liveWidgets := (s.world.liveWidgets).erase v
            dashWidgets := s.world.dashWidgets.map fun dw => (dw.1, dw.2.erase v) },
            by simp [tryCatchDB, ws_widgets_delete, hv], by simp [delEvent, h1, h2, h3], rfl⟩
        · exact ⟨{ s.world with events := s.world.events ++ [.widgetDelete v] },
            by simp [tryCatchDB, ws_widgets_delete, hv, mpure], by simp [delEvent, h1, h2, h3], rfl⟩
      · rw [if_neg h3] at h
        cases h

theorem storeLoop_spec (st : List (String × Nat)) (desired : List String)
    (s : St)
    (hwf : ∀ kv ∈ st, kv.1 ∉ desired → unpack2 (pySplitColon kv.1) ≠ none) :
    ∃ w' : World,
      storeLoop desired st s = (.ok (keptState desired st), { s with world := w' })
      ∧ w'.events = s.world.events ++ orphanEvents desired st
      ∧ w'.blob = s.world.blob := by
  induction st generalizing s with
  | nil => exact ⟨s.world, by simp [storeLoop, mpure, keptState], by simp [orphanEvents], rfl⟩
  | cons kv t ih =>
    obtain ⟨k, v⟩ := kv
    by_cases hk : k ∈ desired
    · obtain ⟨w', heq, hev, hblob⟩ :=
        ih s (fun kv hm hnd => hwf kv (List.mem_cons_of_mem _ hm) hnd)
      refine ⟨w', ?_, ?_, hblob⟩
      · simp only [storeLoop, if_pos hk, bind_is_mbind]
        rw [mbind_ok heq]
        simp [mpure, keptState, if_pos hk]
      · simpa [orphanEvents, if_pos hk] using hev
    · cases hu : unpack2 (pySplitColon k) with
      | none => exact absurd hu (hwf (k, v) (List.mem_cons_self _ _) hk)
      | some pr =>
        cases hd : destructorFor pr.2 with
        | none =>
          obtain ⟨w', heq, hev, hblob⟩ :=
            ih s (fun kv hm hnd => hwf kv (List.mem_cons_of_mem _ hm) hnd)
          refine ⟨w', ?_, ?_, hblob⟩
          · simp only [storeLoop, if_neg hk, hu, hd]
            rw [heq]
            simp [keptState, if_neg hk]
          · rw [hev]
            have hnotin := (destructorFor_none pr.2).mp hd
            simp [orphanEvents, if_neg hk, hu, hnotin]
        | some destr =>
          obtain ⟨w1, heq1, hev1, hblob1⟩ := destr_run pr.2 destr v s hd
          obtain ⟨w2, heq2, hev2, hblob2⟩ :=
            ih { s with world := w1 }
              (fun kv hm hnd => hwf kv (List.mem_cons_of_mem _ hm) hnd)
          refine ⟨w2, ?_, ?_, by rw [hblob2]; exact hblob1⟩
          · simp only [storeLoop, if_neg hk, hu, hd, bind_is_mbind]
            rw [mbind_ok heq1]
            rw [heq2]
            simp [keptState, if_neg hk]
          · rw [hev2, hev1]
            have hin : pr.2 ∈ ["query_id", "viz_id", "widget_id"] := by
              by_contra hno
              rw [(destructorFor_none pr.2).mpr hno] at hd
              cases hd
            simp [orphanEvents, if_neg hk, hu, hin, List.append_assoc]

/-- C3: the save step keeps every desired entry verbatim, drops every other
entry while attempting one kind-specific remote deletion for orphaned
`query_id`/`viz_id`/`widget_id` entries (and none for other kinds), succeeds
no matter whether any of those deletions fails remotely, and persists the
filtered state in a single overwriting upload that is the final remote
call. -/
theorem c3_store_query_state_spec (queries : List (String × List SimpleQuery))
    (s : St)
    (hwf : ∀ kv ∈ s.state, kv.1 ∉ desiredKeys queries →
      unpack2 (pySplitColon kv.1) ≠ none) :
    ∃ w' : World,
      _store_query_state queries s = (.ok (), { s with world := w' })
      ∧ w'.blob = .good (keptState (desiredKeys queries) s.state)
      ∧ w'.events = s.world.events
          ++ orphanEvents (desiredKeys queries) s.state
          ++ [.upload (keptState (desiredKeys queries) s.state)] := by
  obtain ⟨w1, heq, hev, hblob⟩ := storeLoop_spec s.state (desiredKeys queries) s hwf
  refine ⟨{ w1 with
      blob := .good (keptState (desiredKeys queries) s.state)
      events := w1.events ++ [.upload (keptState (desiredKeys queries) s.state)] },
    ?_, rfl, by rw [hev]⟩
  simp only [_store_query_state, bind_is_mbind]
  rw [mbind_ok (by exact (rfl : getS s = (.ok s, s)))]
  rw [mbind_ok heq]
  simp [ws_upload, emit, modifyS, mbind, mpure]

/-- Witness for C3: a state holding one desired entry, one orphaned query
whose remote deletion fails (the id is not live), one orphaned viz whose
deletion succeeds, and one orphaned dashboard entry (never deleted
remotely). -/
theorem c3_store_query_state_spec_witness :
    (∀ kv ∈ ({ baseSt with
        state := [("a_q.sql:query_id", 5), ("gone_q.sql:query_id", 6),
          ("gone_q.sql:viz_id", 7), ("gone:dashboard_id", 8)]
        world := { emptyWorld with liveViz := [7] } } : St).state,
      kv.1 ∉ desiredKeys [("a", [⟨"a", "q.sql", "SELECT 1", [], []⟩])] →
      unpack2 (pySplitColon kv.1) ≠ none)
    ∧ ∃ w' : World,
      _store_query_state [("a", [⟨"a", "q.sql", "SELECT 1", [], []⟩])]
          { baseSt with
            state := [("a_q.sql:query_id", 5), ("gone_q.sql:query_id", 6),
              ("gone_q.sql:viz_id", 7), ("gone:dashboard_id", 8)]
            world := { emptyWorld with liveViz := [7] } } =
        (.ok (), { { baseSt with
            state := [("a_q.sql:query_id", 5), ("gone_q.sql:query_id", 6),
              ("gone_q.sql:viz_id", 7), ("gone:dashboard_id", 8)]
            world := { emptyWorld with liveViz := [7] } } with world := w' })
      ∧ w'.blob = .good (keptState
          (desiredKeys [("a", [⟨"a", "q.sql", "SELECT 1", [], []⟩])])
          [("a_q.sql:query_id", 5), ("gone_q.sql:query_id", 6),
            ("gone_q.sql:viz_id", 7), ("gone:dashboard_id", 8)])
      ∧ w'.events = { emptyWorld with liveViz := [7] }.events
          ++ orphanEvents (desiredKeys [("a", [⟨"a", "q.sql", "SELECT 1", [], []⟩])])
              [("a_q.sql:query_id", 5), ("gone_q.sql:query_id", 6),
                ("gone_q.sql:viz_id", 7), ("gone:dashboard_id", 8)]
          ++ [.upload (keptState
              (desiredKeys [("a", [⟨"a", "q.sql", "SELECT 1", [], []⟩])])
              [("a_q.sql:query_id", 5), ("gone_q.sql:query_id", 6),
                ("gone_q.sql:viz_id", 7), ("gone:dashboard_id", 8)])] :=
  ⟨by decide, c3_store_query_state_spec _ _ (by decide)⟩

/-! C10: malformed state keys crash the load sweep and the save filter. -/

theorem ws_download_good {s : St} {d : List (String × Nat)}
    (h : s.world.blob = .good d) :
    ws_download s = (.ok d,
      { s with world := { s.world with events := s.world.events ++ [.download] } }) := by
  simp [ws_download, emit, getS, mbind, mpure, h]

/-- Running the liveness probe on one recorded query id: it always succeeds,
emits the `queryGet` call, and reports deadness of the id. -/
theorem probe_run (v : Nat) (s : St) :
    tryCatchDB (mbind (ws_queries_get v) fun _ => mpure false) (fun _ => mpure true) s
      = (.ok (if v ∈ s.world.liveQueries then false else true),
        { s with world := { s.world with events := s.world.events ++ [.queryGet v] } }) := by
  by_cases hv : v ∈ s.world.liveQueries <;>
    simp [tryCatchDB, ws_queries_get, emit, getS, mbind, mpure, throwE, hv]

theorem sweepCheck_cons_bad {k : String} (v : Nat) (t : List (String × Nat))
    (s : St) (hu : unpack2 (pySplitColon k) = none) :
    sweepCheck ((k, v) :: t) s = (.error .valErr, s) := by
  simp only [sweepCheck, hu]
  rfl

theorem sweepCheck_cons_dash {k : String} {pr : String × String} (v : Nat)
    (t : List (String × Nat)) (s : St)
    (hu : unpack2 (pySplitColon k) = some pr) (hdash : k = "dashboard_id") :
    sweepCheck ((k, v) :: t) s = sweepCheck t s := by
  simp only [sweepCheck, hu]
  rw [if_pos hdash]

theorem sweepCheck_cons_other {k : String} {pr : String × String} (v : Nat)
    (t : List (String × Nat)) (s : St)
    (hu : unpack2 (pySplitColon k) = some pr) (hdash : ¬ k = "dashboard_id")
    (hq : ¬ pr.2 = "query_id") :
    sweepCheck ((k, v) :: t) s = sweepCheck t s := by
  simp only [sweepCheck, hu]
  rw [if_neg hdash, if_pos hq]

theorem sweepCheck_cons_query {k : String} {pr : String × String} (v : Nat)
    (t : List (String × Nat)) (s : St)
    (hu : unpack2 (pySplitColon k) = some pr) (hdash : ¬ k = "dashboard_id")
    (hq : pr.2 = "query_id") :
    sweepCheck ((k, v) :: t) s =
      mbind (sweepCheck t)
        (fun tail => mpure
          (if (if v ∈ s.world.liveQueries then false else true) then k :: tail else tail))
        { s with world := { s.world with events := s.world.events ++ [.queryGet v] } } := by
  simp only [sweepCheck, hu, bind_is_mbind]
  rw [if_neg hdash, if_neg (by simp [hq])]
  rw [mbind_ok (probe_run v s)]

theorem sweepCheck_bad (st : List (String × Nat)) (s : St)
    (hbad : ∃ kv ∈ st, unpack2 (pySplitColon kv.1) = none) :
    ∃ s' : St, sweepCheck st s = (.error .valErr, s') := by
  induction st generalizing s with
  | nil => obtain ⟨kv, hm, _⟩ := hbad; cases hm
  | cons kv t ih =>
    obtain ⟨k, v⟩ := kv
    cases hu : unpack2 (pySplitColon k) with
    | none => exact ⟨s, sweepCheck_cons_bad v t s hu⟩
    | some pr =>
      have htail : ∃ kv ∈ t, unpack2 (pySplitColon kv.1) = none := by
        obtain ⟨kv', hm, hbad'⟩ := hbad
        cases List.mem_cons.mp hm with
        | inl h0 => rw [h0] at hbad'; exact absurd hbad' (by simp [hu])
        | inr h0 => exact ⟨kv', h0, hbad'⟩
      by_cases hdash : k = "dashboard_id"
      · obtain ⟨s', hs'⟩ := ih s htail
        exact ⟨s', by rw [sweepCheck_cons_dash v t s hu hdash]; exact hs'⟩
      · by_cases hq : pr.2 = "query_id"
        · obtain ⟨s', hs'⟩ := ih
            { s with world := { s.world with events := s.world.events ++ [.queryGet v] } }
            htail
          refine ⟨s', ?_⟩
          rw [sweepCheck_cons_query v t s hu hdash hq, mbind_err hs']
        · obtain ⟨s', hs'⟩ := ih s htail
          exact ⟨s', by rw [sweepCheck_cons_other v t s hu hdash hq]; exact hs'⟩

theorem storeLoop_bad (st : List (String × Nat)) (desired : List String) (s : St)
    (hbad : ∃ kv ∈ st, kv.1 ∉ desired ∧ unpack2 (pySplitColon kv.1) = none) :
    ∃ s' : St, storeLoop desired st s = (.error .valErr, s') := by
  induction st generalizing s with
  | nil => obtain ⟨kv, hm, _⟩ := hbad; cases hm
  | cons kv t ih =>
    obtain ⟨k, v⟩ := kv
    by_cases hk : k ∈ desired
    · have htail : ∃ kv ∈ t, kv.1 ∉ desired ∧ unpack2 (pySplitColon kv.1) = none := by
        obtain ⟨kv', hm, hbad'⟩ := hbad
        cases List.mem_cons.mp hm with
        | inl h0 => rw [h0] at hbad'; exact absurd hk hbad'.1
        | inr h0 => exact ⟨kv', h0, hbad'⟩
      obtain ⟨s', hs'⟩ := ih s htail
      refine ⟨s', ?_⟩
      simp only [storeLoop, if_pos hk, bind_is_mbind]
      rw [mbind_err hs']
    · cases hu : unpack2 (pySplitColon k) with
      | none => exact ⟨s, by simp [storeLoop, if_neg hk, hu, throwE]⟩
      | some pr =>
        have htail : ∃ kv ∈ t, kv.1 ∉ desired ∧ unpack2 (pySplitColon kv.1) = none := by
          obtain ⟨kv', hm, hbad'⟩ := hbad
          cases List.mem_cons.mp hm with
          | inl h0 => rw [h0] at hbad'; exact absurd hbad'.2 (by simp [hu])
          | inr h0 => exact ⟨kv', h0, hbad'⟩
        cases hd : destructorFor pr.2 with
        | none =>
          obtain ⟨s', hs'⟩ := ih s htail
          exact ⟨s', by simp only [storeLoop, if_neg hk, hu, hd]; exact hs'⟩
        | some destr =>
          obtain ⟨w1, heq1, _, _⟩ := destr_run pr.2 destr v s hd
          obtain ⟨s', hs'⟩ := ih { s with world := w1 } htail
          refine ⟨s', ?_⟩
          simp only [storeLoop, if_neg hk, hu, hd, bind_is_mbind]
          rw [mbind_ok heq1]
          exact hs'

/-- C10: both the load-time liveness sweep and the save-time orphan filter
unpack every state key they examine by splitting on `":"` into exactly two
parts.  Any loaded state containing a key that does not split into exactly
two parts makes `_installed_query_state` raise an uncaught `ValueError`; any
accumulated state containing such a key outside the desired set makes
`_store_query_state` raise an uncaught `ValueError` — well-formed
`"ref:kind"` keys are an unstated precondition. -/
theorem c10_malformed_key_value_error :
    (∀ (s : St) (d : List (String × Nat)), s.world.blob = .good d →
      (∃ kv ∈ d, unpack2 (pySplitColon kv.1) = none) →
      ∃ s' : St, _installed_query_state s = (.error .valErr, s'))
    ∧ (∀ (queries : List (String × List SimpleQuery)) (s : St),
      (∃ kv ∈ s.state, kv.1 ∉ desiredKeys queries ∧
        unpack2 (pySplitColon kv.1) = none) →
      ∃ s' : St, _store_query_state queries s = (.error .valErr, s')) := by
  constructor
  · intro s d h hbad
    obtain ⟨⟨blob, nid, lq, lv, lw, dw, whs, ds, foid, ev⟩, st0, pos, wid, np, ho, cb⟩ := s
    cases h
    obtain ⟨s', hs'⟩ := sweepCheck_bad d
      ⟨⟨.good d, nid, lq, lv, lw, dw, whs, ds, foid, ev ++ [.download]⟩,
        d, pos, wid, np, ho, cb⟩ hbad
    refine ⟨s', ?_⟩
    simp only [_installed_query_state, loadBody, tryCatch2, ws_download, emit, getS,
      modifyS, bind_is_mbind, pure_is_mpure, mbind, mpure]
    rw [hs']
  · intro queries s hbad
    obtain ⟨s', hs'⟩ := storeLoop_bad s.state (desiredKeys queries) s hbad
    refine ⟨s', ?_⟩
    simp only [_store_query_state, bind_is_mbind]
    rw [mbind_ok (show getS s = (Except.ok s, s) from rfl)]
    rw [mbind_err hs']

/-- Witness for C10 at a state blob holding the colon-free key `"legacy"`. -/
theorem c10_malformed_key_value_error_witness :
    ({ baseSt with world := { emptyWorld with blob := .good [("legacy", 3)] } } : St).world.blob
        = .good [("legacy", 3)]
    ∧ (∃ kv ∈ [(("legacy" : String), (3 : Nat))], unpack2 (pySplitColon kv.1) = none)
    ∧ ∃ s' : St,
        _installed_query_state
            { baseSt with world := { emptyWorld with blob := .good [("legacy", 3)] } }
          = (.error .valErr, s') :=
  ⟨rfl, by decide,
    c10_malformed_key_value_error.1 _ [("legacy", 3)] rfl (by decide)⟩

/-! C5: unknown visualization kinds. -/

/-- A query definition whose declared viz kind is not recognized. -/
def badViz (q : SimpleQuery) : Prop :=
  q.viz_type ≠ some "table" ∧ q.viz_type ≠ some "counter"

/-- C5 (amended): for every query definition with an unrecognized viz kind,
the options builder fails with a `SyntaxError` whose message interpolates the
query text (not its name), the viz-install step fails with that error before
issuing any remote call and without touching any state, and validation fails
with an `AssertionError` that names the query.  (The query-install step that
precedes the viz step in `create_dashboards` has already created or updated
the query remotely by then — see the counterexample.) -/
theorem c5_unknown_viz_kind_amended (q : SimpleQuery) (hbad : badViz q) :
    _get_viz_options q =
        .error (.synErr (q.query ++ ": unknown viz type: " ++ optRepr q.viz_type))
    ∧ (∀ s : St, _install_viz q s =
        (.error (.synErr (q.query ++ ": unknown viz type: " ++ optRepr q.viz_type)), s))
    ∧ (∀ (s : St) (rest : List SimpleQuery),
        validateQueryLoop (q :: rest) s =
          (.error (.assertErr ("Error in " ++ q.name ++ ": " ++
            (q.query ++ ": unknown viz type: " ++ optRepr q.viz_type))), s)) := by
  have h1 : _get_viz_options q =
      .error (.synErr (q.query ++ ": unknown viz type: " ++ optRepr q.viz_type)) := by
    unfold _get_viz_options
    split
    · exact absurd (by assumption) hbad.1
    · exact absurd (by assumption) hbad.2
    · rfl
  refine ⟨h1, fun s => ?_, fun s rest => ?_⟩
  · simp only [_install_viz, bind_is_mbind]
    rw [mbind_err (show liftE (_get_viz_options q) s = (.error _, s) by rw [h1]; rfl)]
  · simp only [validateQueryLoop, bind_is_mbind, tryCatchAll, liftE, mbind, h1]
    rfl

/-- The `"pie"` query of the spec's rejection scenario. -/
def qPie : QueryInput :=
  { name := "p.sql"
    query := "SELECT 1"
    viz := [("type", "pie")]
    widget := [] }

/-- A single dashboard folder containing only the `"pie"` query. -/
def gPie : GroupInput := { step := "assessment", sub := "main", queries := [qPie] }

/-- Counterexample to C5 as stated: reconciling a desired set with one
`"pie"` query does fail with an error naming the query text, but it has
already issued remote calls for that query — the query itself was created
remotely (`queryCreate 2` and its permission grant are in the trace) before
the error. -/
theorem c5_query_created_before_viz_error_counterexample :
    (create_dashboards [gPie] baseSt).1
        = .error (.synErr "SELECT 1: unknown viz type: pie")
    ∧ Event.queryCreate 2 ∈ (create_dashboards [gPie] baseSt).2.world.events
    ∧ (create_dashboards [gPie] baseSt).2.world.events
        = [.download, .mkdirs, .getStatus, .dataSourcesList, .warehousesList,
           .dashCreate 1, .permSet, .queryCreate 2, .permSet] := by
  refine ⟨by decide, by decide, by decide⟩

/-- Witness for C5 at the concrete `"pie"` query. -/
theorem c5_unknown_viz_kind_amended_witness :
    badViz ⟨"assessment_main", "p.sql", "SELECT 1", [("type", "pie")], []⟩
    ∧ _get_viz_options ⟨"assessment_main", "p.sql", "SELECT 1", [("type", "pie")], []⟩
        = .error (.synErr ("SELECT 1" ++ ": unknown viz type: " ++
            optRepr (SimpleQuery.viz_type ⟨"assessment_main", "p.sql", "SELECT 1", [("type", "pie")], []⟩))) :=
  ⟨⟨by decide, by decide⟩,
    (c5_unknown_viz_kind_amended _ ⟨by decide, by decide⟩).1⟩

/-! C8: the validation entry point. -/

/-- Any branch of the widget-options builder leaves everything but the
position counter untouched. -/
theorem widget_options_state (q : SimpleQuery) (s : St) :
    (_get_widget_options q s).2 = { s with pos := s.pos + 1 } := by
  simp only [_get_widget_options]
  cases getIntAttr q.widget "col" 0 with
  | error e => rfl
  | ok col =>
    cases getIntAttr q.widget "row" (Int.ofNat (s.pos + 1)) with
    | error e => rfl
    | ok row =>
      cases getIntAttr q.widget "size_x" 3 with
      | error e => rfl
      | ok sx =>
        cases getIntAttr q.widget "size_y" 3 with
        | error e => rfl
        | ok sy => rfl

/-- A computation that can change only the position counter. -/
def PreservesWS {α : Type} (m : M α) : Prop :=
  ∀ s : St, ((m s).2).world = s.world ∧ ((m s).2).state = s.state

theorem PreservesWS.mbind {α β : Type} {m : M α} {f : α → M β}
    (hm : PreservesWS m) (hf : ∀ a, PreservesWS (f a)) :
    PreservesWS (mbind m f) := by
  intro s
  unfold DashboardsPy.mbind
  cases hms : m s with
  | mk r s1 =>
    cases r with
    | ok a =>
      have h1 := hm s
      rw [hms] at h1
      have h2 := hf a s1
      exact ⟨h2.1.trans h1.1, h2.2.trans h1.2⟩
    | error e =>
      have h1 := hm s
      rw [hms] at h1
      exact h1

theorem PreservesWS.mpure {α : Type} (a : α) : PreservesWS (mpure a) :=
  fun _ => ⟨rfl, rfl⟩

theorem PreservesWS.throwE {α : Type} (e : Err) : PreservesWS (throwE e : M α) :=
  fun _ => ⟨rfl, rfl⟩

theorem PreservesWS.liftE {α : Type} (r : Except Err α) : PreservesWS (liftE r) :=
  fun _ => ⟨rfl, rfl⟩

theorem PreservesWS.widget (q : SimpleQuery) : PreservesWS (_get_widget_options q) := by
  intro s
  rw [widget_options_state q s]
  exact ⟨rfl, rfl⟩

theorem PreservesWS.tryCatchAll {α : Type} {body : M α} {h : Err → M α}
    (hb : PreservesWS body) (hh : ∀ e, PreservesWS (h e)) :
    PreservesWS (tryCatchAll body h) := by
  intro s
  unfold DashboardsPy.tryCatchAll
  cases hbs : body s with
  | mk r s1 =>
    cases r with
    | ok a =>
      have h1 := hb s
      rw [hbs] at h1
      exact h1
    | error e =>
      have h1 := hb s
      rw [hbs] at h1
      have h2 := hh e s1
      exact ⟨h2.1.trans h1.1, h2.2.trans h1.2⟩

theorem validateQueryLoop_preserves (qs : List SimpleQuery) :
    PreservesWS (validateQueryLoop qs) := by
  induction qs with
  | nil => exact PreservesWS.mpure ()
  | cons q t ih =>
    refine PreservesWS.mbind (PreservesWS.tryCatchAll ?_ ?_) fun _ => ih
    · exact PreservesWS.mbind (PreservesWS.liftE _) fun _ =>
        PreservesWS.mbind (PreservesWS.widget q) fun _ => PreservesWS.mpure ()
    · exact fun e => PreservesWS.throwE _

theorem validate_preserves (gs : List GroupInput) : PreservesWS (validate gs) := by
  unfold validate
  induction gs with
  | nil => exact PreservesWS.mpure ()
  | cons g t ih =>
    simp only [validateGroups, bind_is_mbind]
    exact PreservesWS.mbind (fun s => ⟨rfl, rfl⟩) fun s0 =>
      PreservesWS.mbind (validateQueryLoop_preserves _) fun _ => ih

/-- The first definition error of a query's builders, if any: the viz-options
error, else the first widget layout attribute that fails `int()` parsing (in
`col`, `row`, `size_x`, `size_y` order). -/
def widgetErr (q : SimpleQuery) : Option Err :=
  match getIntAttr q.widget "col" 0 with
  | .error e => some e
  | .ok _ =>
    match getIntAttr q.widget "row" 0 with
    | .error e => some e
    | .ok _ =>
      match getIntAttr q.widget "size_x" 3 with
      | .error e => some e
      | .ok _ =>
        match getIntAttr q.widget "size_y" 3 with
        | .error e => some e
        | .ok _ => none

/-- The definition error surfaced for one query by `validate`, if any. -/
def qDefnError (q : SimpleQuery) : Option Err :=
  match _get_viz_options q with
  | .error e => some e
  | .ok _ => widgetErr q

theorem getIntAttr_dflt_err (d : List (String × String)) (k : String)
    (a b : Int) {e : Err} (h : getIntAttr d k a = .error e) :
    getIntAttr d k b = .error e := by
  unfold getIntAttr at h ⊢
  cases hl : lookupA d k with
  | none => rw [hl] at h; cases h
  | some v => rw [hl] at h; exact h

theorem getIntAttr_dflt_ok (d : List (String × String)) (k : String)
    (a b : Int) {n : Int} (h : getIntAttr d k a = .ok n) :
    ∃ n', getIntAttr d k b = .ok n' := by
  unfold getIntAttr at h ⊢
  cases hl : lookupA d k with
  | none => exact ⟨b, rfl⟩
  | some v => rw [hl] at h; exact ⟨n, h⟩

/-- The widget-options builder fails exactly on `widgetErr`, always bumping
the counter first. -/
theorem widget_options_err (q : SimpleQuery) (s : St) {e : Err}
    (h : widgetErr q = some e) :
    _get_widget_options q s = (.error e, { s with pos := s.pos + 1 }) := by
  unfold widgetErr at h
  simp only [_get_widget_options]
  cases hc : getIntAttr q.widget "col" 0 with
  | error e' => rw [hc] at h; cases h; rfl
  | ok col =>
    rw [hc] at h
    cases hr : getIntAttr q.widget "row" 0 with
    | error e' =>
      rw [hr] at h
      cases h
      rw [getIntAttr_dflt_err q.widget "row" 0 (Int.ofNat (s.pos + 1)) hr]
    | ok row =>
      rw [hr] at h
      obtain ⟨row', hrow'⟩ := getIntAttr_dflt_ok q.widget "row" 0 (Int.ofNat (s.pos + 1)) hr
      rw [hrow']
      cases hx : getIntAttr q.widget "size_x" 3 with
      | error e' => rw [hx] at h; cases h; rfl
      | ok sx =>
        rw [hx] at h
        cases hy : getIntAttr q.widget "size_y" 3 with
        | error e' => rw [hy] at h; cases h; rfl
        | ok sy => rw [hy] at h; cases h

theorem widget_options_ok (q : SimpleQuery) (s : St) (h : widgetErr q = none) :
    ∃ o : WidgetOptions, _get_widget_options q s = (.ok o, { s with pos := s.pos + 1 }) := by
  unfold widgetErr at h
  simp only [_get_widget_options]
  cases hc : getIntAttr q.widget "col" 0 with
  | error e' => rw [hc] at h; cases h
  | ok col =>
    rw [hc] at h
    cases hr : getIntAttr q.widget "row" 0 with
    | error e' => rw [hr] at h; cases h
    | ok row =>
      rw [hr] at h
      obtain ⟨row', hrow'⟩ := getIntAttr_dflt_ok q.widget "row" 0 (Int.ofNat (s.pos + 1)) hr
      rw [hrow']
      cases hx : getIntAttr q.widget "size_x" 3 with
      | error e' => rw [hx] at h; cases h
      | ok sx =>
        rw [hx] at h
        cases hy : getIntAttr q.widget "size_y" 3 with
        | error e' => rw [hy] at h; cases h
        | ok sy => exact ⟨_, rfl⟩

/-- C8 (amended): validation performs no remote calls and leaves the
in-memory state untouched for every input; a query whose builders raise a
definition error makes `validate` raise an `AssertionError` formed only from
the query's name and the error text (the group reference is not part of the
message), skipping everything after it; and error-free queries are passed
over (only the position counter advances).  The failure reports the first
error, not an aggregate. -/
theorem c8_validate_first_error_by_name :
    (∀ (gs : List GroupInput) (s : St),
      ((validate gs s).2).world = s.world ∧ ((validate gs s).2).state = s.state)
    ∧ (∀ (q : SimpleQuery) (rest : List SimpleQuery) (s : St) (e : Err),
      qDefnError q = some e →
      (validateQueryLoop (q :: rest) s).1 =
        .error (.assertErr ("Error in " ++ q.name ++ ": " ++ errStr e)))
    ∧ (∀ (q : SimpleQuery) (rest : List SimpleQuery) (s : St),
      qDefnError q = none →
      validateQueryLoop (q :: rest) s = validateQueryLoop rest { s with pos := s.pos + 1 }) := by
  refine ⟨fun gs s => validate_preserves gs s, ?_, ?_⟩
  · intro q rest s e h
    unfold qDefnError at h
    cases hv : _get_viz_options q with
    | error ev =>
      rw [hv] at h
      cases h
      simp only [validateQueryLoop, bind_is_mbind, tryCatchAll, liftE, mbind, hv]
      rfl
    | ok va =>
      rw [hv] at h
      simp only [validateQueryLoop, bind_is_mbind, tryCatchAll, liftE, mbind, hv]
      rw [widget_options_err q s h]
      rfl
  · intro q rest s h
    unfold qDefnError at h
    cases hv : _get_viz_options q with
    | error ev => rw [hv] at h; cases h
    | ok va =>
      rw [hv] at h
      obtain ⟨o, ho⟩ := widget_options_ok q s h
      simp only [validateQueryLoop, bind_is_mbind, tryCatchAll, liftE, mbind, hv]
      rw [ho]
      rfl

/-- A second unsupported query definition, to show validation is not
aggregated. -/
def qPie2 : QueryInput :=
  { name := "q2.sql"
    query := "SELECT 2"
    viz := [("type", "pie")]
    widget := [] }

/-- Counterexample to C8 as stated: the same `"pie"` query placed in two
different groups produces the identical `AssertionError` message (the message
does not identify the group), and a group with two failing queries reports
only the first (the failure is not aggregated over every desired query). -/
theorem c8_validate_not_aggregated_counterexample :
    (validate [⟨"assessment", "main", [qPie]⟩] baseSt).1
        = .error (.assertErr "Error in p.sql: SELECT 1: unknown viz type: pie")
    ∧ (validate [⟨"migration", "other", [qPie]⟩] baseSt).1
        = .error (.assertErr "Error in p.sql: SELECT 1: unknown viz type: pie")
    ∧ (validate [⟨"assessment", "main", [qPie, qPie2]⟩] baseSt).1
        = .error (.assertErr "Error in p.sql: SELECT 1: unknown viz type: pie") := by
  refine ⟨by decide, by decide, by decide⟩

/-- Witness for C8: the first-error branch at the concrete `"pie"` query. -/
theorem c8_validate_first_error_by_name_witness :
    qDefnError ⟨"assessment_main", "p.sql", "SELECT 1", [("type", "pie")], []⟩
        = some (.synErr "SELECT 1: unknown viz type: pie")
    ∧ (validateQueryLoop [⟨"assessment_main", "p.sql", "SELECT 1", [("type", "pie")], []⟩] baseSt).1
        = .error (.assertErr ("Error in " ++ "p.sql" ++ ": " ++
            errStr (.synErr "SELECT 1: unknown viz type: pie"))) :=
  ⟨by decide,
    c8_validate_first_error_by_name.2.1 _ [] baseSt _ (by decide)⟩

/-! Run equations for the remote primitives. -/

theorem ws_mkdirs_run (s : St) :
    ws_mkdirs s = (.ok (),
      { s with world := { s.world with events := s.world.events ++ [.mkdirs] } }) := rfl

theorem ws_get_status_run (s : St) :
    ws_get_status s = (.ok s.world.folderObjectId,
      { s with world := { s.world with events := s.world.events ++ [.getStatus] } }) := by
  simp [ws_get_status, emit, getS, mbind, mpure]

theorem ws_upload_run (d : List (String × Nat)) (s : St) :
    ws_upload d s = (.ok (),
      { s with world := { s.world with
          blob := .good d
          events := s.world.events ++ [.upload d] } }) := by
  simp [ws_upload, emit, modifyS, mbind, mpure]

theorem ws_perm_set_run (s : St) :
    ws_perm_set s = (.ok (),
      { s with world := { s.world with events := s.world.events ++ [.permSet] } }) := rfl

theorem ws_queries_create_run (parent : String) (dsId : Nat) (nm tx : String) (s : St) :
    ws_queries_create parent dsId nm tx s = (.ok s.world.nextId,
      { s with world := { s.world with
          nextId := s.world.nextId + 1
          liveQueries := s.world.liveQueries ++ [s.world.nextId]
          events := s.world.events ++ [.queryCreate s.world.nextId] } }) := rfl

theorem ws_queries_update_run (id dsId : Nat) (nm tx : String) (s : St) :
    ws_queries_update id dsId nm tx s = (.ok (),
      { s with world := { s.world with events := s.world.events ++ [.queryUpdate id] } }) := rfl

theorem ws_viz_create_run (qid : Nat) (s : St) :
    ws_viz_create qid s = (.ok s.world.nextId,
      { s with world := { s.world with
          nextId := s.world.nextId + 1
          liveViz := s.world.liveViz ++ [s.world.nextId]
          events := s.world.events ++ [.vizCreate s.world.nextId] } }) := rfl

theorem ws_viz_update_run (id : Nat) (s : St) :
    ws_viz_update id s = (.ok (),
      { s with world := { s.world with events := s.world.events ++ [.vizUpdate id] } }) := rfl

theorem ws_dashboards_create_run (nm parent : String) (s : St) :
    ws_dashboards_create nm parent s = (.ok s.world.nextId,
      { s with world := { s.world with
          nextId := s.world.nextId + 1
          dashWidgets := s.world.dashWidgets ++ [(s.world.nextId, [])]
          events := s.world.events ++ [.dashCreate s.world.nextId] } }) := rfl

theorem ws_dashboards_get_run (id : Nat) (s : St) {ws0 : List Nat}
    (h : lookupA s.world.dashWidgets id = some ws0) :
    ws_dashboards_get id s = (.ok ws0,
      { s with world := { s.world with events := s.world.events ++ [.dashGet id] } }) := by
  simp [ws_dashboards_get, emit, getS, mbind, mpure, h]

theorem ws_widgets_create_run (dashId : Nat) (row : Int) (vizId : Nat) (s : St)
    {ws0 : List Nat} (h : lookupA s.world.dashWidgets dashId = some ws0) :
    ws_widgets_create dashId row vizId s = (.ok s.world.nextId,
      { s with world := { s.world with
          nextId := s.world.nextId + 1
          liveWidgets := s.world.liveWidgets ++ [s.world.nextId]
          dashWidgets := insertA s.world.dashWidgets dashId (ws0 ++ [s.world.nextId])
          events := s.world.events ++ [.widgetCreate s.world.nextId] } }) := by
  simp [ws_widgets_create, emit, getS, modifyS, mbind, mpure, h]

theorem ws_widgets_delete_run (id : Nat) (s : St) (h : id ∈ s.world.liveWidgets) :
    ws_widgets_delete id s = (.ok (),
      { s with world := { s.world with
          liveWidgets := s.world.liveWidgets.erase id
          dashWidgets := s.world.dashWidgets.map fun dw => (dw.1, dw.2.erase id)
          events := s.world.events ++ [.widgetDelete id] } }) := by
  simp [ws_widgets_delete, h]

theorem ws_data_sources_list_run (s : St) :
    ws_data_sources_list s = (.ok s.world.dataSources,
      { s with world := { s.world with events := s.world.events ++ [.dataSourcesList] } }) := by
  simp [ws_data_sources_list, emit, getS, mbind, mpure]

theorem ws_warehouses_list_run (s : St) :
    ws_warehouses_list s = (.ok s.world.warehouses,
      { s with world := { s.world with events := s.world.events ++ [.warehousesList] } }) := by
  simp [ws_warehouses_list, emit, getS, mbind, mpure]

theorem ws_download_missing {s : St} (h : s.world.blob = .missing) :
    ws_download s = (.error (.dbErr "RESOURCE_DOES_NOT_EXIST"),
      { s with world := { s.world with events := s.world.events ++ [.download] } }) := by
  simp [ws_download, emit, getS, mbind, mpure, throwE, h]

theorem stateGet_run {s : St} {k : String} {v : Nat}
    (h : lookupA s.state k = some v) : stateGet k s = (.ok v, s) := by
  simp [stateGet, h]

theorem stateSet_run (k : String) (v : Nat) (s : St) :
    stateSet k v s = (.ok (), { s with state := insertA s.state k v }) := rfl

/-- The sweep can only fail with a `ValueError`. -/
theorem sweepCheck_err (st : List (String × Nat)) :
    ∀ (s : St) (e : Err) (s' : St), sweepCheck st s = (.error e, s') → e = .valErr := by
  induction st with
  | nil => intro s e s' h; cases h
  | cons kv t ih =>
    obtain ⟨k, v⟩ := kv
    intro s e s' h
    cases hu : unpack2 (pySplitColon k) with
    | none =>
      rw [sweepCheck_cons_bad v t s hu] at h
      cases h
      rfl
    | some pr =>
      by_cases hdash : k = "dashboard_id"
      · rw [sweepCheck_cons_dash v t s hu hdash] at h
        exact ih s e s' h
      · by_cases hq : pr.2 = "query_id"
        · rw [sweepCheck_cons_query v t s hu hdash hq] at h
          set s1 : St :=
            { s with world := { s.world with events := s.world.events ++ [.queryGet v] } } with hs1
          cases hrec : sweepCheck t s1 with
          | mk r s2 =>
            cases r with
            | ok tr => rw [mbind_ok hrec] at h; cases h
            | error e2 =>
              rw [mbind_err hrec] at h
              cases h
              exact ih s1 _ _ hrec
        · rw [sweepCheck_cons_other v t s hu hdash hq] at h
          exact ih s e s' h

theorem tryCatch2_ok {α : Type} {body : M α} {hdb : String → M α} {hjson : M α}
    {s s' : St} {a : α} (h : body s = (.ok a, s')) :
    tryCatch2 body hdb hjson s = (.ok a, s') := by
  unfold tryCatch2; rw [h]

theorem tryCatch2_val {α : Type} {body : M α} {hdb : String → M α} {hjson : M α}
    {s s' : St} (h : body s = (.error .valErr, s')) :
    tryCatch2 body hdb hjson s = (.error .valErr, s') := by
  unfold tryCatch2; rw [h]

/-- Run equation for the `try` body of the load on a well-decoded blob, given
the sweep's outcome on the decoded state. -/
theorem loadBody_good (s : St) (d : List (String × Nat))
    (h : s.world.blob = .good d) (r : Except Err (List String)) (s3 : St)
    (hs : sweepCheck d
        { s with
          state := d
          world := { s.world with events := s.world.events ++ [.download] } }
      = (r, s3)) :
    loadBody s =
      (match r with
        | .ok tr => (.ok (), { s3 with state := eraseKeys s3.state tr })
        | .error e => (.error e, s3)) := by
  obtain ⟨⟨blob, nid, lq, lv, lw, dw, whs, ds, foid, ev⟩, st0, pos, wid, np, ho, cb⟩ := s
  cases h
  simp only [loadBody, bind_is_mbind, ws_download, emit, getS, modifyS,
    pure_is_mpure, mbind, mpure] at hs ⊢
  cases r with
  | ok tr => simp only [hs]
  | error e => simp only [hs]

/-- Run equation for `_installed_query_state` on a well-decoded blob with a
successful sweep: the dead keys are erased and the parent folder resolved. -/
theorem instQS_good_ok (s : St) (d : List (String × Nat))
    (h : s.world.blob = .good d) (tr : List String) (s3 : St)
    (hs : sweepCheck d
        { s with
          state := d
          world := { s.world with events := s.world.events ++ [.download] } }
      = (.ok tr, s3)) :
    _installed_query_state s =
      (.ok ("folders/" ++ toString s3.world.folderObjectId),
        { s3 with
          state := eraseKeys s3.state tr
          world := { s3.world with events := s3.world.events ++ [.getStatus] } }) := by
  have hb := loadBody_good s d h (.ok tr) s3 hs
  simp only [_installed_query_state, bind_is_mbind]
  rw [mbind_ok (tryCatch2_ok hb)]
  rw [mbind_ok (ws_get_status_run _)]
  rfl

/-- Run equation for `_installed_query_state` on a well-decoded blob with a
failing sweep: only a `ValueError` can arise there and no handler catches
it. -/
theorem instQS_good_err (s : St) (d : List (String × Nat))
    (h : s.world.blob = .good d) (e : Err) (s3 : St)
    (hs : sweepCheck d
        { s with
          state := d
          world := { s.world with events := s.world.events ++ [.download] } }
      = (.error e, s3)) :
    _installed_query_state s = (.error .valErr, s3) := by
  have he : e = .valErr := sweepCheck_err d _ e s3 hs
  subst he
  have hb := loadBody_good s d h (.error .valErr) s3 hs
  simp only [_installed_query_state, bind_is_mbind]
  rw [mbind_err (tryCatch2_val hb)]

/-! Run equations for the per-resource install steps. -/

/-- `_dashboard_data_source` always issues exactly the two listing calls,
whatever its outcome. -/
theorem dds_state (s : St) :
    (_dashboard_data_source s).2 =
      { s with world := { s.world with
          events := s.world.events ++ [.dataSourcesList, .warehousesList] } } := by
  obtain ⟨⟨blob, nid, lq, lv, lw, dw, whs, ds, foid, ev⟩, st0, pos, wid, np, ho, cb⟩ := s
  simp only [_dashboard_data_source, bind_is_mbind, ws_data_sources_list,
    ws_warehouses_list, emit, getS, mbind, mpure, pure_is_mpure, throwE]
  cases wid with
  | some w =>
    cases hl : lookupA ds w <;> simp [hl, throwE, mpure, List.append_assoc]
  | none =>
    cases whs with
    | nil => simp [throwE, List.append_assoc]
    | cons w ws =>
      cases hl : lookupA ds w <;> simp [hl, throwE, mpure, List.append_assoc]

/-- `_dashboard_data_source` with a configured warehouse that has a data
source. -/
theorem dds_run (s : St) {w dsid : Nat} (hw : s.warehouseId = some w)
    (hd : lookupA s.world.dataSources w = some dsid) :
    _dashboard_data_source s = (.ok dsid,
      { s with world := { s.world with
          events := s.world.events ++ [.dataSourcesList, .warehousesList] } }) := by
  obtain ⟨⟨blob, nid, lq, lv, lw, dw, whs, ds, foid, ev⟩, st0, pos, wid, np, ho, cb⟩ := s
  simp only [St.warehouseId] at hw
  subst hw
  simp only [World.dataSources] at hd
  simp only [_dashboard_data_source, bind_is_mbind, ws_data_sources_list,
    ws_warehouses_list, emit, getS, mbind, mpure, pure_is_mpure]
  simp [hd, mpure, List.append_assoc]

/-- `_install_query` when the query key is already recorded: a single remote
update. -/
theorem install_query_upd (q : SimpleQuery) (dn : String) (dsid : Nat)
    (par : String) (s : St) {qid : Nat}
    (h : lookupA s.state q.query_key = some qid) :
    _install_query q dn dsid par s = (.ok (),
      { s with world := { s.world with
          events := s.world.events ++ [.queryUpdate qid] } }) := by
  simp only [_install_query, bind_is_mbind, getS, mbind, h]
  rfl

/-- `_install_query` when the query key is absent: create, grant, record. -/
theorem install_query_new (q : SimpleQuery) (dn : String) (dsid : Nat)
    (par : String) (s : St) (h : lookupA s.state q.query_key = none) :
    _install_query q dn dsid par s = (.ok (),
      { s with
        state := insertA s.state q.query_key s.world.nextId
        world := { s.world with
          nextId := s.world.nextId + 1
          liveQueries := s.world.liveQueries ++ [s.world.nextId]
          events := s.world.events ++ [.queryCreate s.world.nextId, .permSet] } }) := by
  simp only [_install_query, bind_is_mbind, getS, mbind, h]
  rw [ws_queries_create_run]
  simp only [mbind]
  rw [ws_perm_set_run]
  simp [stateSet, modifyS, List.append_assoc]

/-- `_install_viz` when the viz key is already recorded: a single remote
update. -/
theorem install_viz_upd (q : SimpleQuery) (s : St) {va : VizArgs} {vid : Nat}
    (hv : _get_viz_options q = .ok va)
    (h : lookupA s.state q.viz_key = some vid) :
    _install_viz q s = (.ok (),
      { s with world := { s.world with
          events := s.world.events ++ [.vizUpdate vid] } }) := by
  simp only [_install_viz, bind_is_mbind, liftE, getS, mbind, hv, h]
  rfl

/-- `_install_viz` when the viz key is absent: create against the recorded
query id and record. -/
theorem install_viz_new (q : SimpleQuery) (s : St) {va : VizArgs} {qid : Nat}
    (hv : _get_viz_options q = .ok va)
    (h : lookupA s.state q.viz_key = none)
    (hq : lookupA s.state q.query_key = some qid) :
    _install_viz q s = (.ok (),
      { s with
        state := insertA s.state q.viz_key s.world.nextId
        world := { s.world with
          nextId := s.world.nextId + 1
          liveViz := s.world.liveViz ++ [s.world.nextId]
          events := s.world.events ++ [.vizCreate s.world.nextId] } }) := by
  simp only [_install_viz, bind_is_mbind, liftE, getS, mbind, hv, h]
  rw [stateGet_run hq]
  simp only [mbind]
  rw [ws_viz_create_run]
  simp [stateSet, modifyS]

/-- `_install_viz` on an unrecognized kind fails before any remote call (also
stated in C5; repeated here as the equation used by the loop lemmas). -/
theorem install_viz_err (q : SimpleQuery) (s : St) {e : Err}
    (hv : _get_viz_options q = .error e) :
    _install_viz q s = (.error e, s) := by
  simp only [_install_viz, bind_is_mbind, liftE, mbind, hv]

/-- `_install_widget`: always bump the counter and create a fresh widget
against the recorded dashboard and viz ids. -/
theorem install_widget_run (q : SimpleQuery) (dashboard_ref : String) (s : St)
    {did vid : Nat} {o : WidgetOptions} {ws0 : List Nat}
    (hdk : lookupA s.state (dashboard_ref ++ ":dashboard_id") = some did)
    (hwo : _get_widget_options q s = (.ok o, { s with pos := s.pos + 1 }))
    (hvk : lookupA s.state q.viz_key = some vid)
    (hdw : lookupA s.world.dashWidgets did = some ws0) :
    _install_widget q dashboard_ref s = (.ok (),
      { s with
        pos := s.pos + 1
        state := insertA s.state q.widget_key s.world.nextId
        world := { s.world with
          nextId := s.world.nextId + 1
          liveWidgets := s.world.liveWidgets ++ [s.world.nextId]
          dashWidgets := insertA s.world.dashWidgets did (ws0 ++ [s.world.nextId])
          events := s.world.events ++ [.widgetCreate s.world.nextId] } }) := by
  simp only [_install_widget, bind_is_mbind]
  rw [mbind_ok (stateGet_run hdk)]
  rw [mbind_ok hwo]
  rw [mbind_ok (stateGet_run (show lookupA ({ s with pos := s.pos + 1 } : St).state q.viz_key = some vid from hvk))]
  rw [mbind_ok (ws_widgets_create_run did o.row vid _ (show lookupA ({ s with pos := s.pos + 1 } : St).world.dashWidgets did = some ws0 from hdw))]
  simp [stateSet, modifyS]

/-- `_install_widget` when the widget layout attributes do not parse: fails
after bumping the counter, before any remote call. -/
theorem install_widget_err (q : SimpleQuery) (dashboard_ref : String) (s : St)
    {did : Nat} {e : Err}
    (hdk : lookupA s.state (dashboard_ref ++ ":dashboard_id") = some did)
    (hwe : widgetErr q = some e) :
    _install_widget q dashboard_ref s = (.error e, { s with pos := s.pos + 1 }) := by
  simp only [_install_widget, bind_is_mbind]
  rw [mbind_ok (stateGet_run hdk)]
  rw [mbind_err (widget_options_err q s hwe)]

/-- `_install_dashboard` when the dashboard key is absent: create, grant,
record. -/
theorem install_dashboard_new (dn par ref : String) (s : St)
    (h : lookupA s.state (ref ++ ":dashboard_id") = none) :
    _install_dashboard dn par ref s = (.ok (),
      { s with
        state := insertA s.state (ref ++ ":dashboard_id") s.world.nextId
        world := { s.world with
          nextId := s.world.nextId + 1
          dashWidgets := s.world.dashWidgets ++ [(s.world.nextId, [])]
          events := s.world.events ++ [.dashCreate s.world.nextId, .permSet] } }) := by
  simp only [_install_dashboard, bind_is_mbind, getS, mbind, h]
  rw [ws_dashboards_create_run]
  simp only [mbind]
  rw [ws_perm_set_run]
  simp [stateSet, modifyS, List.append_assoc]

/-- Erasing a list of widget ids from the live set, in deletion order. -/
def eraseAllFrom (l : List Nat) (ws : List Nat) : List Nat :=
  ws.foldl (fun acc w => acc.erase w) l

/-- Erasing a list of widget ids from every dashboard's widget list. -/
def eraseAllDW (dw : List (Nat × List Nat)) (ws : List Nat) : List (Nat × List Nat) :=
  ws.foldl (fun acc w => acc.map fun p => (p.1, p.2.erase w)) dw

/-- The widget-clearing loop deletes every listed (live, distinct) widget. -/
theorem deleteWidgetsLoop_run (ws : List Nat) :
    ∀ s : St, ws.Nodup → (∀ w ∈ ws, w ∈ s.world.liveWidgets) →
    deleteWidgetsLoop ws s = (.ok (),
      { s with world := { s.world with
          liveWidgets := eraseAllFrom s.world.liveWidgets ws
          dashWidgets := eraseAllDW s.world.dashWidgets ws
          events := s.world.events ++ ws.map Event.widgetDelete } }) := by
  induction ws with
  | nil => intro s _ _; simp [deleteWidgetsLoop, mpure, eraseAllFrom, eraseAllDW]
  | cons w rest ih =>
    intro s hnd hlive
    simp only [deleteWidgetsLoop, bind_is_mbind]
    rw [mbind_ok (ws_widgets_delete_run w s (hlive w (List.mem_cons_self w rest)))]
    rw [ih _ (List.nodup_cons.mp hnd).2 ?hrest]
    case hrest =>
      intro x hx
      have hxl := hlive x (List.mem_cons_of_mem w hx)
      have hne : x ≠ w := fun hxw => (List.nodup_cons.mp hnd).1 (hxw ▸ hx)
      exact List.mem_erase_of_ne hne |>.mpr hxl
    simp [eraseAllFrom, eraseAllDW, List.append_assoc]

/-- `_install_dashboard` when the dashboard key is recorded: clear the
attached widgets remotely and return. -/
theorem install_dashboard_old (dn par ref : String) (s : St)
    {did : Nat} {ws0 : List Nat}
    (h : lookupA s.state (ref ++ ":dashboard_id") = some did)
    (hdw : lookupA s.world.dashWidgets did = some ws0)
    (hnd : ws0.Nodup) (hlive : ∀ w ∈ ws0, w ∈ s.world.liveWidgets) :
    _install_dashboard dn par ref s = (.ok (),
      { s with world := { s.world with
          liveWidgets := eraseAllFrom s.world.liveWidgets ws0
          dashWidgets := eraseAllDW s.world.dashWidgets ws0
          events := s.world.events ++ [.dashGet did] ++ ws0.map Event.widgetDelete } }) := by
  simp only [_install_dashboard, bind_is_mbind]
  rw [mbind_ok (show getS s = (Except.ok s, s) from rfl)]
  simp only [h]
  rw [mbind_ok (ws_dashboards_get_run did s hdw)]
  rw [deleteWidgetsLoop_run ws0 _ hnd (by exact hlive)]

/-! Association-list lemmas. -/

theorem lookupA_append_left {κ ν : Type} [DecidableEq κ] {l1 : List (κ × ν)}
    (l2 : List (κ × ν)) {k : κ} {v : ν}
    (h : lookupA l1 k = some v) : lookupA (l1 ++ l2) k = some v := by
  induction l1 with
  | nil => cases h
  | cons kv t ih =>
    obtain ⟨k', v'⟩ := kv
    by_cases hk : k' = k
    · simp only [lookupA, if_pos hk] at h ⊢; exact h
    · simp only [lookupA, if_neg hk] at h ⊢
      exact ih h

theorem lookupA_append_right {κ ν : Type} [DecidableEq κ] {l1 : List (κ × ν)}
    (l2 : List (κ × ν)) {k : κ} (h : k ∉ keysA l1) :
    lookupA (l1 ++ l2) k = lookupA l2 k := by
  induction l1 with
  | nil => rfl
  | cons kv t ih =>
    obtain ⟨k', v'⟩ := kv
    have hk : ¬ k' = k := by
      intro he; exact h (by simp [keysA, he])
    simp only [List.cons_append, lookupA, if_neg hk]
    exact ih fun hm => h (by simp [keysA] at hm ⊢; exact Or.inr hm)

theorem lookupA_eq_none {κ ν : Type} [DecidableEq κ] {l : List (κ × ν)} {k : κ}
    (h : k ∉ keysA l) : lookupA l k = none := by
  induction l with
  | nil => rfl
  | cons kv t ih =>
    obtain ⟨k', v'⟩ := kv
    have hk : ¬ k' = k := by
      intro he; exact h (by simp [keysA, he])
    simp only [lookupA, if_neg hk]
    exact ih fun hm => h (by simp [keysA] at hm ⊢; exact Or.inr hm)

theorem insertA_notMem {κ ν : Type} [DecidableEq κ] {l : List (κ × ν)} {k : κ}
    (v : ν) (h : k ∉ keysA l) : insertA l k v = l ++ [(k, v)] := by
  induction l with
  | nil => rfl
  | cons kv t ih =>
    obtain ⟨k', v'⟩ := kv
    have hk : ¬ k' = k := by
      intro he; exact h (by simp [keysA, he])
    simp only [insertA, if_neg hk, List.cons_append, List.cons.injEq, true_and]
    exact ih fun hm => h (by simp [keysA] at hm ⊢; exact Or.inr hm)

theorem lookupA_insertA_self {κ ν : Type} [DecidableEq κ] (l : List (κ × ν)) (k : κ)
    (v : ν) : lookupA (insertA l k v) k = some v := by
  induction l with
  | nil => simp [insertA, lookupA]
  | cons kv t ih =>
    obtain ⟨k', v'⟩ := kv
    by_cases hk : k' = k
    · simp [insertA, lookupA, hk]
    · simp only [insertA, if_neg hk, lookupA, if_neg hk]
      exact ih

theorem insertA_insertA {κ ν : Type} [DecidableEq κ] (l : List (κ × ν)) (k : κ)
    (v v' : ν) : insertA (insertA l k v) k v' = insertA l k v' := by
  induction l with
  | nil => simp [insertA]
  | cons kv t ih =>
    obtain ⟨k', w⟩ := kv
    by_cases hk : k' = k
    · simp [insertA, hk]
    · simp only [insertA, if_neg hk, ih]

theorem insertA_append_present {κ ν : Type} [DecidableEq κ] {l1 : List (κ × ν)} {k : κ}
    (v v' : ν) (h : k ∉ keysA l1) :
    insertA (l1 ++ [(k, v)]) k v' = l1 ++ [(k, v')] := by
  induction l1 with
  | nil => simp [insertA]
  | cons kv t ih =>
    obtain ⟨k', w⟩ := kv
    have hk : ¬ k' = k := by
      intro he; exact h (by simp [keysA, he])
    simp only [List.cons_append, insertA, if_neg hk, List.cons.injEq, true_and]
    exact ih fun hm => h (by simp [keysA] at hm ⊢; exact Or.inr hm)

theorem keysA_append {κ ν : Type} [DecidableEq κ] (l1 l2 : List (κ × ν)) :
    keysA (l1 ++ l2) = keysA l1 ++ keysA l2 := by
  simp [keysA]

/-- Right cancellation for string concatenation. -/
theorem string_append_right_cancel {a b c : String} (h : a ++ c = b ++ c) :
    a = b := by
  apply String.ext
  have hd := congrArg String.data h
  rw [String.data_append, String.data_append] at hd
  exact List.append_cancel_right hd

/-! Pure description of a fresh (first) run, threading the id counter. -/

/-- The dashboard state key of a group. -/
def dashKey (g : GroupInput) : String := refOf g ++ ":dashboard_id"

/-- The desired queries built for one group. -/
def gqs (cb : Option (String → String)) (g : GroupInput) : List SimpleQuery :=
  _desired_queries cb g.queries (refOf g)

/-- State entries appended per query on a fresh run: ids `b`, `b+1`, `b+2`. -/
def qTriples : List SimpleQuery → Nat → List (String × Nat)
  | [], _ => []
  | q :: t, b =>
    (q.query_key, b) :: (q.viz_key, b + 1) :: (q.widget_key, b + 2) :: qTriples t (b + 3)

/-- Remote calls per query on a fresh run. -/
def qEvents1 : List SimpleQuery → Nat → List Event
  | [], _ => []
  | _ :: t, b =>
    .queryCreate b :: .permSet :: .vizCreate (b + 1) :: .widgetCreate (b + 2)
      :: qEvents1 t (b + 3)

/-- Query ids created per query list on a fresh run. -/
def qIds : List SimpleQuery → Nat → List Nat
  | [], _ => []
  | _ :: t, b => b :: qIds t (b + 3)

/-- Visualization ids created per query list on a fresh run. -/
def vIds1 : List SimpleQuery → Nat → List Nat
  | [], _ => []
  | _ :: t, b => (b + 1) :: vIds1 t (b + 3)

/-- Widget ids created per query list on a fresh run. -/
def wIds1 : List SimpleQuery → Nat → List Nat
  | [], _ => []
  | _ :: t, b => (b + 2) :: wIds1 t (b + 3)

/-- The id counter after installing a query list on a fresh run. -/
def nextIdQ : List SimpleQuery → Nat → Nat
  | [], b => b
  | _ :: t, b => nextIdQ t (b + 3)

/-- The widget position counter after installing a query list. -/
def posQ : List SimpleQuery → Nat → Nat
  | [], p => p
  | _ :: t, p => posQ t (p + 1)

theorem insertA_self {κ ν : Type} [DecidableEq κ] {l : List (κ × ν)} {k : κ} {v : ν}
    (h : lookupA l k = some v) : insertA l k v = l := by
  induction l with
  | nil => cases h
  | cons kv t ih =>
    obtain ⟨k', v'⟩ := kv
    by_cases hk : k' = k
    · simp only [lookupA, if_pos hk] at h
      cases h
      simp [insertA, hk]
    · simp only [lookupA, if_neg hk] at h
      simp only [insertA, if_neg hk, ih h]

theorem lookupA_snoc {κ ν : Type} [DecidableEq κ] {l : List (κ × ν)} {k : κ} (v : ν)
    (h : k ∉ keysA l) : lookupA (l ++ [(k, v)]) k = some v := by
  rw [lookupA_append_right _ h]
  simp [lookupA]

/-- Fresh-install loop: when none of the query/viz/widget keys are recorded
yet, each query yields a create/grant/create/create sequence with three
consecutive fresh ids. -/
theorem installLoop_fresh (dn : String) (dsid : Nat) (par ref : String) :
    ∀ (qs : List SimpleQuery) (s : St) (did : Nat) (ws0 : List Nat),
    lookupA s.state (ref ++ ":dashboard_id") = some did →
    (∀ k ∈ queryKeys qs, k ∉ keysA s.state) →
    (queryKeys qs).Nodup →
    (∀ q ∈ qs, ∃ va, _get_viz_options q = .ok va) →
    (∀ q ∈ qs, widgetErr q = none) →
    lookupA s.world.dashWidgets did = some ws0 →
    installQueriesLoop dn dsid par ref qs s = (.ok (),
      { s with
        state := s.state ++ qTriples qs s.world.nextId
        pos := posQ qs s.pos
        world := { s.world with
          nextId := nextIdQ qs s.world.nextId
          liveQueries := s.world.liveQueries ++ qIds qs s.world.nextId
          liveViz := s.world.liveViz ++ vIds1 qs s.world.nextId
          liveWidgets := s.world.liveWidgets ++ wIds1 qs s.world.nextId
          dashWidgets := insertA s.world.dashWidgets did (ws0 ++ wIds1 qs s.world.nextId)
          events := s.world.events ++ qEvents1 qs s.world.nextId } }) := by
  intro qs
  induction qs with
  | nil =>
    intro s did ws0 hdk habs hnd hviz hwid hdw
    simp only [installQueriesLoop, mpure, qTriples, qEvents1, qIds, vIds1, wIds1,
      nextIdQ, posQ, List.append_nil]
    rw [insertA_self hdw]
  | cons q t ih =>
    intro s did ws0 hdk habs hnd hviz hwid hdw
    obtain ⟨va, hva⟩ := hviz q (List.mem_cons_self q t)
    have hwe : widgetErr q = none := hwid q (List.mem_cons_self q t)
    have hqk_keys : q.query_key ∉ keysA s.state :=
      habs q.query_key (by simp [queryKeys])
    have hvk_keys : q.viz_key ∉ keysA s.state :=
      habs q.viz_key (by simp [queryKeys])
    have hwk_keys : q.widget_key ∉ keysA s.state :=
      habs q.widget_key (by simp [queryKeys])
    have hnd' := hnd
    simp only [queryKeys, List.nodup_cons, List.mem_cons] at hnd'
    have hqv : ¬ q.query_key = q.viz_key := fun h => hnd'.1 (Or.inl h)
    have hqw : ¬ q.query_key = q.widget_key := fun h => hnd'.1 (Or.inr (Or.inl h))
    have hvw : ¬ q.viz_key = q.widget_key := fun h => hnd'.2.1 (Or.inl h)
    -- step 1: the query is created and recorded
    have h1 : _install_query q dn dsid par s = (.ok (),
        { s with
          state := s.state ++ [(q.query_key, s.world.nextId)]
          world := { s.world with
            nextId := s.world.nextId + 1
            liveQueries := s.world.liveQueries ++ [s.world.nextId]
            events := s.world.events ++ [.queryCreate s.world.nextId, .permSet] } }) := by
      rw [install_query_new q dn dsid par s (lookupA_eq_none hqk_keys)]
      rw [insertA_notMem _ hqk_keys]
    -- step 2: the viz is created against the query id and recorded
    have h2 : _install_viz q
        { s with
          state := s.state ++ [(q.query_key, s.world.nextId)]
          world := { s.world with
            nextId := s.world.nextId + 1
            liveQueries := s.world.liveQueries ++ [s.world.nextId]
            events := s.world.events ++ [.queryCreate s.world.nextId, .permSet] } } = (.ok (),
        { s with
          state := s.state ++ [(q.query_key, s.world.nextId), (q.viz_key, s.world.nextId + 1)]
          world := { s.world with
            nextId := s.world.nextId + 2
            liveQueries := s.world.liveQueries ++ [s.world.nextId]
            liveViz := s.world.liveViz ++ [s.world.nextId + 1]
            events := s.world.events ++ [.queryCreate s.world.nextId, .permSet,
              .vizCreate (s.world.nextId + 1)] } }) := by
      rw [install_viz_new _ _ hva ?hvk ?hqk]
      case hvk =>
        apply lookupA_eq_none
        rw [keysA_append]
        intro hm
        cases List.mem_append.mp hm with
        | inl h0 => exact hvk_keys h0
        | inr h0 =>
          simp [keysA] at h0
          exact hqv h0.symm
      case hqk => exact lookupA_snoc _ hqk_keys
      rw [insertA_notMem]
      · simp [List.append_assoc]
      · rw [keysA_append]
        intro hm
        cases List.mem_append.mp hm with
        | inl h0 => exact hvk_keys h0
        | inr h0 =>
          simp [keysA] at h0
          exact hqv h0.symm
    -- step 3: the widget is created against the viz id and recorded
    obtain ⟨o, ho⟩ := widget_options_ok q
      { s with
        state := s.state ++ [(q.query_key, s.world.nextId), (q.viz_key, s.world.nextId + 1)]
        world := { s.world with
          nextId := s.world.nextId + 2
          liveQueries := s.world.liveQueries ++ [s.world.nextId]
          liveViz := s.world.liveViz ++ [s.world.nextId + 1]
          events := s.world.events ++ [.queryCreate s.world.nextId, .permSet,
            .vizCreate (s.world.nextId + 1)] } } hwe
    have h3 : _install_widget q ref
        { s with
          state := s.state ++ [(q.query_key, s.world.nextId), (q.viz_key, s.world.nextId + 1)]
          world := { s.world with
            nextId := s.world.nextId + 2
            liveQueries := s.world.liveQueries ++ [s.world.nextId]
            liveViz := s.world.liveViz ++ [s.world.nextId + 1]
            events := s.world.events ++ [.queryCreate s.world.nextId, .permSet,
              .vizCreate (s.world.nextId + 1)] } } = (.ok (),
        { s with
          state := s.state ++ [(q.query_key, s.world.nextId), (q.viz_key, s.world.nextId + 1),
            (q.widget_key, s.world.nextId + 2)]
          pos := s.pos + 1
          world := { s.world with
            nextId := s.world.nextId + 3
            liveQueries := s.world.liveQueries ++ [s.world.nextId]
            liveViz := s.world.liveViz ++ [s.world.nextId + 1]
            liveWidgets := s.world.liveWidgets ++ [s.world.nextId + 2]
            dashWidgets := insertA s.world.dashWidgets did (ws0 ++ [s.world.nextId + 2])
            events := s.world.events ++ [.queryCreate s.world.nextId, .permSet,
              .vizCreate (s.world.nextId + 1), .widgetCreate (s.world.nextId + 2)] } }) := by
      have hdk2 : lookupA
          (s.state ++ [(q.query_key, s.world.nextId), (q.viz_key, s.world.nextId + 1)])
          (ref ++ ":dashboard_id") = some did := lookupA_append_left _ hdk
      have hvk2 : lookupA
          (s.state ++ [(q.query_key, s.world.nextId), (q.viz_key, s.world.nextId + 1)])
          q.viz_key = some (s.world.nextId + 1) := by
        rw [lookupA_append_right _ hvk_keys]
        simp [lookupA, hqv]
      have hwk2 : q.widget_key ∉ keysA
          (s.state ++ [(q.query_key, s.world.nextId), (q.viz_key, s.world.nextId + 1)]) := by
        rw [keysA_append]
        intro hm
        cases List.mem_append.mp hm with
        | inl h0 => exact hwk_keys h0
        | inr h0 =>
          simp [keysA] at h0
          cases h0 with
          | inl h0 => exact hqw h0.symm
          | inr h0 => exact hvw h0.symm
      rw [install_widget_run q ref _ hdk2 ho hvk2 (by exact hdw)]
      rw [insertA_notMem _ hwk2]
      simp [List.append_assoc]
    simp only [installQueriesLoop, bind_is_mbind]
    rw [mbind_ok h1, mbind_ok h2, mbind_ok h3]
    rw [ih _ did (ws0 ++ [s.world.nextId + 2]) ?ihdk ?ihabs ?ihnd ?ihviz ?ihwid ?ihdw]
    case ihdk => exact lookupA_append_left _ hdk
    case ihabs =>
      intro k hk
      rw [keysA_append]
      intro hm
      cases List.mem_append.mp hm with
      | inl h0 => exact habs k (by simp [queryKeys, hk]) h0
      | inr h0 =>
        simp [keysA] at h0
        rcases h0 with h0 | h0 | h0
        · exact hnd'.1 (Or.inr (Or.inr (h0 ▸ hk))) |>.elim
        · exact hnd'.2.1 (Or.inr (h0 ▸ hk)) |>.elim
        · exact hnd'.2.2.1 (h0 ▸ hk) |>.elim
    case ihnd => exact hnd'.2.2.2
    case ihviz => exact fun q' hq' => hviz q' (List.mem_cons_of_mem q hq')
    case ihwid => exact fun q' hq' => hwid q' (List.mem_cons_of_mem q hq')
    case ihdw => exact lookupA_insertA_self _ _ _
    simp [qTriples, qEvents1, qIds, vIds1, wIds1, nextIdQ, posQ,
      insertA_insertA, List.append_assoc]

/-- Fresh-install step for one dashboard folder: reload (not found, folder
created), resolve the data source, create the dashboard, then create each
query/viz/widget triple. -/
theorem groupStep_fresh (g : GroupInput) (s : St) (w dsid : Nat)
    (hblob : s.world.blob = .missing)
    (hw : s.warehouseId = some w)
    (hd : lookupA s.world.dataSources w = some dsid)
    (hdkabs : dashKey g ∉ keysA s.state)
    (habs : ∀ k ∈ queryKeys (gqs s.queryTextCb g), k ∉ keysA s.state)
    (hgnd : (dashKey g :: queryKeys (gqs s.queryTextCb g)).Nodup)
    (hviz : ∀ q ∈ gqs s.queryTextCb g, ∃ va, _get_viz_options q = .ok va)
    (hwid : ∀ q ∈ gqs s.queryTextCb g, widgetErr q = none)
    (hdwlt : ∀ j ∈ keysA s.world.dashWidgets, j < s.world.nextId) :
    groupStep g s = (.ok (refOf g, gqs s.queryTextCb g, s.world.nextId),
      { s with
        state := s.state ++ (dashKey g, s.world.nextId)
          :: qTriples (gqs s.queryTextCb g) (s.world.nextId + 1)
        pos := posQ (gqs s.queryTextCb g) s.pos
        world := { s.world with
          nextId := nextIdQ (gqs s.queryTextCb g) (s.world.nextId + 1)
          liveQueries := s.world.liveQueries ++ qIds (gqs s.queryTextCb g) (s.world.nextId + 1)
          liveViz := s.world.liveViz ++ vIds1 (gqs s.queryTextCb g) (s.world.nextId + 1)
          liveWidgets := s.world.liveWidgets ++ wIds1 (gqs s.queryTextCb g) (s.world.nextId + 1)
          dashWidgets := s.world.dashWidgets
            ++ [(s.world.nextId, wIds1 (gqs s.queryTextCb g) (s.world.nextId + 1))]
          events := s.world.events
            ++ [.download, .mkdirs, .getStatus, .dataSourcesList, .warehousesList,
                .dashCreate s.world.nextId, .permSet]
            ++ qEvents1 (gqs s.queryTextCb g) (s.world.nextId + 1) } }) := by
  have hgnd' := List.nodup_cons.mp hgnd
  simp only [groupStep, bind_is_mbind]
  rw [mbind_ok (show getS s = (Except.ok s, s) from rfl)]
  rw [show _desired_queries s.queryTextCb g.queries (refOf g) = gqs s.queryTextCb g from rfl]
  rw [mbind_ok (c4_state_load_error_contract.1 s hblob)]
  rw [mbind_ok (dds_run _ (show (({ s with world := { s.world with
        events := s.world.events ++ [.download, .mkdirs, .getStatus] } } : St)).warehouseId
      = some w from hw) (by exact hd))]
  have hdash : _install_dashboard
      (s.namePfx ++ " " ++ pyTitle g.step ++ " (" ++ pyTitle g.sub ++ ")")
      ("folders/" ++ toString s.world.folderObjectId) (refOf g)
      { s with world := { s.world with
          events := s.world.events ++ [.download, .mkdirs, .getStatus]
            ++ [.dataSourcesList, .warehousesList] } } = (.ok (),
      { s with
        state := s.state ++ [(dashKey g, s.world.nextId)]
        world := { s.world with
          nextId := s.world.nextId + 1
          dashWidgets := s.world.dashWidgets ++ [(s.world.nextId, [])]
          events := s.world.events
            ++ [.download, .mkdirs, .getStatus, .dataSourcesList, .warehousesList,
                .dashCreate s.world.nextId, .permSet] } }) := by
    rw [install_dashboard_new _ _ _ _ (lookupA_eq_none (by exact hdkabs))]
    rw [insertA_notMem _ (by exact hdkabs)]
    simp [List.append_assoc, dashKey]
  rw [mbind_ok hdash]
  have hloop := installLoop_fresh
    (s.namePfx ++ " " ++ pyTitle g.step ++ " (" ++ pyTitle g.sub ++ ")") dsid
    ("folders/" ++ toString s.world.folderObjectId) (refOf g)
    (gqs s.queryTextCb g)
    { s with
      state := s.state ++ [(dashKey g, s.world.nextId)]
      world := { s.world with
        nextId := s.world.nextId + 1
        dashWidgets := s.world.dashWidgets ++ [(s.world.nextId, [])]
        events := s.world.events
          ++ [.download, .mkdirs, .getStatus, .dataSourcesList, .warehousesList,
              .dashCreate s.world.nextId, .permSet] } }
    s.world.nextId []
    (by exact lookupA_snoc _ hdkabs)
    (by
      intro k hk
      rw [keysA_append]
      intro hm
      cases List.mem_append.mp hm with
      | inl h0 => exact habs k hk h0
      | inr h0 =>
        simp [keysA] at h0
        exact hgnd'.1 (by rw [← h0]; exact hk))
    (by exact hgnd'.2)
    (by exact hviz)
    (by exact hwid)
    (by
      apply lookupA_snoc
      intro hm
      exact Nat.lt_irrefl _ (hdwlt _ hm))
  rw [mbind_ok hloop]
  have hfinal : lookupA
      ((s.state ++ [(dashKey g, s.world.nextId)])
        ++ qTriples (gqs s.queryTextCb g) (s.world.nextId + 1))
      (refOf g ++ ":dashboard_id") = some s.world.nextId :=
    lookupA_append_left _ (lookupA_snoc _ hdkabs)
  rw [mbind_ok (stateGet_run (by exact hfinal))]
  simp [mpure, List.append_assoc]
  exact insertA_append_present _ _ fun hm => Nat.lt_irrefl _ (hdwlt _ hm)

/-! Pure description of a whole fresh run. -/

/-- All state keys of one group, dashboard key first. -/
def groupKeys (cb : Option (String → String)) (g : GroupInput) : List String :=
  dashKey g :: queryKeys (gqs cb g)

/-- All state keys of a desired set, in group order. -/
def allKeys (cb : Option (String → String)) : List GroupInput → List String
  | [] => []
  | g :: t => groupKeys cb g ++ allKeys cb t

/-- State accumulated by a fresh run. -/
def g1State (cb : Option (String → String)) : List GroupInput → Nat → List (String × Nat)
  | [], _ => []
  | g :: t, b =>
    (dashKey g, b) :: (qTriples (gqs cb g) (b + 1)
      ++ g1State cb t (nextIdQ (gqs cb g) (b + 1)))

/-- Remote calls of a fresh run (before the final save). -/
def g1Events (cb : Option (String → String)) : List GroupInput → Nat → List Event
  | [], _ => []
  | g :: t, b =>
    [.download, .mkdirs, .getStatus, .dataSourcesList, .warehousesList,
      .dashCreate b, .permSet]
      ++ qEvents1 (gqs cb g) (b + 1)
      ++ g1Events cb t (nextIdQ (gqs cb g) (b + 1))

/-- Query ids created by a fresh run. -/
def g1LiveQ (cb : Option (String → String)) : List GroupInput → Nat → List Nat
  | [], _ => []
  | g :: t, b => qIds (gqs cb g) (b + 1) ++ g1LiveQ cb t (nextIdQ (gqs cb g) (b + 1))

/-- Viz ids created by a fresh run. -/
def g1LiveV (cb : Option (String → String)) : List GroupInput → Nat → List Nat
  | [], _ => []
  | g :: t, b => vIds1 (gqs cb g) (b + 1) ++ g1LiveV cb t (nextIdQ (gqs cb g) (b + 1))

/-- Widget ids created by a fresh run. -/
def g1LiveW (cb : Option (String → String)) : List GroupInput → Nat → List Nat
  | [], _ => []
  | g :: t, b => wIds1 (gqs cb g) (b + 1) ++ g1LiveW cb t (nextIdQ (gqs cb g) (b + 1))

/-- Widgets attached per dashboard by a fresh run. -/
def g1DashW (cb : Option (String → String)) : List GroupInput → Nat → List (Nat × List Nat)
  | [], _ => []
  | g :: t, b => (b, wIds1 (gqs cb g) (b + 1)) :: g1DashW cb t (nextIdQ (gqs cb g) (b + 1))

/-- The id counter after a fresh run. -/
def g1Next (cb : Option (String → String)) : List GroupInput → Nat → Nat
  | [], b => b
  | g :: t, b => g1Next cb t (nextIdQ (gqs cb g) (b + 1))

/-- The position counter after a fresh run. -/
def g1Pos (cb : Option (String → String)) : List GroupInput → Nat → Nat
  | [], p => p
  | g :: t, p => g1Pos cb t (posQ (gqs cb g) p)

/-- The `dashboards` mapping returned by a fresh run. -/
def g1Dash (cb : Option (String → String)) : List GroupInput → Nat → List (String × Nat)
  | [], _ => []
  | g :: t, b => (refOf g, b) :: g1Dash cb t (nextIdQ (gqs cb g) (b + 1))

/-- The `queries_per_dashboard` mapping accumulated by a run. -/
def g1Qpd (cb : Option (String → String)) (gs : List GroupInput) :
    List (String × List SimpleQuery) :=
  gs.map fun g => (refOf g, gqs cb g)

theorem nextIdQ_ge (qs : List SimpleQuery) : ∀ b, b ≤ nextIdQ qs b := by
  induction qs with
  | nil => intro b; exact Nat.le_refl b
  | cons q t ih =>
    intro b
    exact Nat.le_trans (Nat.le_add_right b 3) (ih (b + 3))

theorem dashKey_mem_allKeys {cb : Option (String → String)} {g : GroupInput} :
    ∀ {gs : List GroupInput}, g ∈ gs → dashKey g ∈ allKeys cb gs := by
  intro gs
  induction gs with
  | nil => intro h; cases h
  | cons g' t ih =>
    intro h
    cases List.mem_cons.mp h with
    | inl h0 =>
      subst h0
      exact List.mem_append.mpr (Or.inl (List.mem_cons_self _ _))
    | inr h0 => exact List.mem_append.mpr (Or.inr (ih h0))

/-- Fresh run over the group loop: each group appends its dashboard and query
triples, with ids threaded through a single counter. -/
theorem groupsLoop_fresh :
    ∀ (gs : List GroupInput) (s : St) (dashboards : List (String × Nat))
      (qpd : List (String × List SimpleQuery)) (w dsid : Nat),
    s.world.blob = .missing →
    s.warehouseId = some w →
    lookupA s.world.dataSources w = some dsid →
    (∀ k ∈ allKeys s.queryTextCb gs, k ∉ keysA s.state) →
    (allKeys s.queryTextCb gs).Nodup →
    (∀ g ∈ gs, refOf g ∉ keysA dashboards) →
    (∀ g ∈ gs, refOf g ∉ keysA qpd) →
    (∀ g ∈ gs, ∀ q ∈ gqs s.queryTextCb g, ∃ va, _get_viz_options q = .ok va) →
    (∀ g ∈ gs, ∀ q ∈ gqs s.queryTextCb g, widgetErr q = none) →
    (∀ j ∈ keysA s.world.dashWidgets, j < s.world.nextId) →
    groupsLoop gs dashboards qpd s = (.ok
        (dashboards ++ g1Dash s.queryTextCb gs s.world.nextId,
          qpd ++ g1Qpd s.queryTextCb gs),
      { s with
        state := s.state ++ g1State s.queryTextCb gs s.world.nextId
        pos := g1Pos s.queryTextCb gs s.pos
        world := { s.world with
          nextId := g1Next s.queryTextCb gs s.world.nextId
          liveQueries := s.world.liveQueries ++ g1LiveQ s.queryTextCb gs s.world.nextId
          liveViz := s.world.liveViz ++ g1LiveV s.queryTextCb gs s.world.nextId
          liveWidgets := s.world.liveWidgets ++ g1LiveW s.queryTextCb gs s.world.nextId
          dashWidgets := s.world.dashWidgets ++ g1DashW s.queryTextCb gs s.world.nextId
          events := s.world.events ++ g1Events s.queryTextCb gs s.world.nextId } }) := by
  intro gs
  induction gs with
  | nil =>
    intro s dashboards qpd w dsid hblob hw hd hkeys hnd hdacc hqacc hviz hwid hdwlt
    simp [groupsLoop, mpure, g1Dash, g1Qpd, g1State, g1Events, g1LiveQ, g1LiveV,
      g1LiveW, g1DashW, g1Next, g1Pos]
  | cons g t ih =>
    intro s dashboards qpd w dsid hblob hw hd hkeys hnd hdacc hqacc hviz hwid hdwlt
    have hsplit : (groupKeys s.queryTextCb g).Nodup ∧ (allKeys s.queryTextCb t).Nodup
        ∧ (groupKeys s.queryTextCb g).Disjoint (allKeys s.queryTextCb t) := by
      have := hnd
      rw [show allKeys s.queryTextCb (g :: t)
        = groupKeys s.queryTextCb g ++ allKeys s.queryTextCb t from rfl] at this
      exact List.nodup_append.mp this
    have hstep := groupStep_fresh g s w dsid hblob hw hd
      (fun hm => hkeys (dashKey g)
        (List.mem_append.mpr (Or.inl (List.mem_cons_self _ _))) hm)
      (fun k hk hm => hkeys k
        (List.mem_append.mpr (Or.inl (List.mem_cons_of_mem _ hk))) hm)
      hsplit.1
      (hviz g (List.mem_cons_self g t))
      (hwid g (List.mem_cons_self g t))
      hdwlt
    simp only [groupsLoop, bind_is_mbind]
    rw [mbind_ok hstep]
    rw [show insertA dashboards (refOf g) s.world.nextId
        = dashboards ++ [(refOf g, s.world.nextId)] from
      insertA_notMem _ (hdacc g (List.mem_cons_self g t))]
    rw [show insertA qpd (refOf g) (gqs s.queryTextCb g)
        = qpd ++ [(refOf g, gqs s.queryTextCb g)] from
      insertA_notMem _ (hqacc g (List.mem_cons_self g t))]
    rw [ih _ _ _ w dsid (by exact hblob) (by exact hw) (by exact hd)
      ?ikeys ?incl ?idacc ?iqacc ?iviz ?iwid ?idwlt]
    case ikeys =>
      intro k hk
      rw [keysA_append]
      intro hm
      cases List.mem_append.mp hm with
      | inl h0 =>
        exact hkeys k (List.mem_append.mpr (Or.inr hk)) h0
      | inr h0 =>
        simp [keysA, qTriples] at h0
        have hkg : k ∈ groupKeys s.queryTextCb g := by
          cases h0 with
          | inl h0 => exact h0 ▸ List.mem_cons_self _ _
          | inr h0 =>
            apply List.mem_cons_of_mem
            have : keysA (qTriples (gqs s.queryTextCb g) (s.world.nextId + 1))
                = queryKeys (gqs s.queryTextCb g) := by
              generalize gqs s.queryTextCb g = qs
              generalize s.world.nextId + 1 = b
              induction qs generalizing b with
              | nil => rfl
              | cons q' t' ih' => simp [qTriples, queryKeys, keysA] at ih' ⊢; exact ih' _
            rw [← this]
            simpa [keysA] using h0
        exact hsplit.2.2 hkg hk
    case incl => exact hsplit.2.1
    case idacc =>
      intro g' hg'
      rw [keysA_append]
      intro hm
      cases List.mem_append.mp hm with
      | inl h0 => exact hdacc g' (List.mem_cons_of_mem g hg') h0
      | inr h0 =>
        simp [keysA] at h0
        have : dashKey g' = dashKey g := by simp [dashKey, h0]
        have : dashKey g ∈ allKeys s.queryTextCb t := this ▸ dashKey_mem_allKeys hg'
        exact hsplit.2.2 (List.mem_cons_self _ _) this
    case iqacc =>
      intro g' hg'
      rw [keysA_append]
      intro hm
      cases List.mem_append.mp hm with
      | inl h0 => exact hqacc g' (List.mem_cons_of_mem g hg') h0
      | inr h0 =>
        simp [keysA] at h0
        have : dashKey g' = dashKey g := by simp [dashKey, h0]
        have : dashKey g ∈ allKeys s.queryTextCb t := this ▸ dashKey_mem_allKeys hg'
        exact hsplit.2.2 (List.mem_cons_self _ _) this
    case iviz => exact fun g' hg' => hviz g' (List.mem_cons_of_mem g hg')
    case iwid => exact fun g' hg' => hwid g' (List.mem_cons_of_mem g hg')
    case idwlt =>
      intro j hj
      rw [keysA_append] at hj
      have hb1 : s.world.nextId + 1 ≤ nextIdQ (gqs s.queryTextCb g) (s.world.nextId + 1) :=
        nextIdQ_ge _ _
      cases List.mem_append.mp hj with
      | inl h0 => exact Nat.lt_of_lt_of_le (Nat.lt_trans (hdwlt j h0) (Nat.lt_succ_self _)) hb1
      | inr h0 =>
        simp [keysA] at h0
        exact Nat.lt_of_lt_of_le (h0 ▸ Nat.lt_succ_self s.world.nextId) hb1
    simp [g1Dash, g1Qpd, g1State, g1Events, g1LiveQ, g1LiveV, g1LiveW, g1DashW,
      g1Next, g1Pos, List.append_assoc]

theorem keysA_qTriples (qs : List SimpleQuery) :
    ∀ b, keysA (qTriples qs b) = queryKeys qs := by
  induction qs with
  | nil => intro b; rfl
  | cons q t ih => intro b; simp [qTriples, queryKeys, keysA] at ih ⊢; exact ih _

theorem keysA_g1State (cb : Option (String → String)) (gs : List GroupInput) :
    ∀ b, keysA (g1State cb gs b) = desiredKeys (g1Qpd cb gs) := by
  induction gs with
  | nil => intro b; rfl
  | cons g t ih =>
    intro b
    show dashKey g :: keysA (qTriples (gqs cb g) (b + 1)
        ++ g1State cb t (nextIdQ (gqs cb g) (b + 1))) = _
    rw [keysA_append, keysA_qTriples, ih]
    rfl

theorem storeLoop_all (desired : List String) :
    ∀ (st : List (String × Nat)) (s : St), (∀ kv ∈ st, kv.1 ∈ desired) →
    storeLoop desired st s = (.ok st, s) := by
  intro st
  induction st with
  | nil => intro s h; simp [storeLoop, mpure]
  | cons kv t ih =>
    obtain ⟨k, v⟩ := kv
    intro s h
    have hk : k ∈ desired := h (k, v) (List.mem_cons_self _ _)
    simp only [storeLoop, if_pos hk, bind_is_mbind]
    rw [mbind_ok (ih s fun kv hm => h kv (List.mem_cons_of_mem _ hm))]
    rfl

/-- The save step when every state entry is desired: no deletions, one
upload of the state as is. -/
theorem store_all_run (queries : List (String × List SimpleQuery)) (s : St)
    (h : ∀ kv ∈ s.state, kv.1 ∈ desiredKeys queries) :
    _store_query_state queries s = (.ok (),
      { s with world := { s.world with
          blob := .good s.state
          events := s.world.events ++ [.upload s.state] } }) := by
  simp only [_store_query_state, bind_is_mbind]
  rw [mbind_ok (show getS s = (Except.ok s, s) from rfl)]
  rw [mbind_ok (storeLoop_all _ _ s h)]
  rw [ws_upload_run]

/-- Full description of a fresh (first) run of `create_dashboards`: one
dashboard per group and one query/viz/widget triple per query are created
with consecutive ids, the counter and position advance accordingly, and the
accumulated state is uploaded once at the end. -/
theorem create_dashboards_fresh (gs : List GroupInput) (s : St) (w dsid : Nat)
    (hblob : s.world.blob = .missing)
    (hstate : s.state = [])
    (hw : s.warehouseId = some w)
    (hd : lookupA s.world.dataSources w = some dsid)
    (hnd : (allKeys s.queryTextCb gs).Nodup)
    (hviz : ∀ g ∈ gs, ∀ q ∈ gqs s.queryTextCb g, ∃ va, _get_viz_options q = .ok va)
    (hwid : ∀ g ∈ gs, ∀ q ∈ gqs s.queryTextCb g, widgetErr q = none)
    (hdwlt : ∀ j ∈ keysA s.world.dashWidgets, j < s.world.nextId) :
    create_dashboards gs s = (.ok (g1Dash s.queryTextCb gs s.world.nextId),
      { s with
        state := g1State s.queryTextCb gs s.world.nextId
        pos := g1Pos s.queryTextCb gs s.pos
        world := { s.world with
          blob := .good (g1State s.queryTextCb gs s.world.nextId)
          nextId := g1Next s.queryTextCb gs s.world.nextId
          liveQueries := s.world.liveQueries ++ g1LiveQ s.queryTextCb gs s.world.nextId
          liveViz := s.world.liveViz ++ g1LiveV s.queryTextCb gs s.world.nextId
          liveWidgets := s.world.liveWidgets ++ g1LiveW s.queryTextCb gs s.world.nextId
          dashWidgets := s.world.dashWidgets ++ g1DashW s.queryTextCb gs s.world.nextId
          events := s.world.events ++ g1Events s.queryTextCb gs s.world.nextId
            ++ [.upload (g1State s.queryTextCb gs s.world.nextId)] } }) := by
  simp only [create_dashboards, bind_is_mbind]
  rw [mbind_ok (groupsLoop_fresh gs s [] [] w dsid hblob hw hd
    (fun k hk hm => by rw [hstate] at hm; cases hm)
    hnd (fun g _ => by intro hm; cases hm) (fun g _ => by intro hm; cases hm)
    hviz hwid hdwlt)]
  have hstore := store_all_run ([] ++ g1Qpd s.queryTextCb gs)
    { s with
      state := s.state ++ g1State s.queryTextCb gs s.world.nextId
      pos := g1Pos s.queryTextCb gs s.pos
      world := { s.world with
        nextId := g1Next s.queryTextCb gs s.world.nextId
        liveQueries := s.world.liveQueries ++ g1LiveQ s.queryTextCb gs s.world.nextId
        liveViz := s.world.liveViz ++ g1LiveV s.queryTextCb gs s.world.nextId
        liveWidgets := s.world.liveWidgets ++ g1LiveW s.queryTextCb gs s.world.nextId
        dashWidgets := s.world.dashWidgets ++ g1DashW s.queryTextCb gs s.world.nextId
        events := s.world.events ++ g1Events s.queryTextCb gs s.world.nextId } }
    (by
      intro kv hm
      simp only [hstate, List.nil_append] at hm ⊢
      have : kv.1 ∈ keysA (g1State s.queryTextCb gs s.world.nextId) := by
        simp [keysA]
        exact ⟨kv.2, by simpa using hm⟩
      rw [keysA_g1State] at this
      simpa using this)
  rw [mbind_ok hstore]
  simp [mpure, hstate, List.append_assoc]

/-! Success-counting framework: downloads, uploads, and position bumps of a
successful computation. -/

/-- Download events. -/
def isDl : Event → Bool
  | .download => true
  | _ => false

/-- Upload events. -/
def isUp : Event → Bool
  | .upload _ => true
  | _ => false

/-- Downloads issued so far. -/
def cntDl (s : St) : Nat := s.world.events.countP isDl

/-- Uploads issued so far. -/
def cntUp (s : St) : Nat := s.world.events.countP isUp

/-- `RC m dl up dp`: every successful run of `m` issues exactly `dl`
downloads and `up` uploads and advances the position counter by `dp`. -/
def RC {α : Type} (m : M α) (dl up dp : Nat) : Prop :=
  ∀ s a s', m s = (.ok a, s') →
    cntDl s' = cntDl s + dl ∧ cntUp s' = cntUp s + up ∧ s'.pos = s.pos + dp

theorem RC_bind {α β : Type} {m : M α} {f : α → M β} {d1 u1 p1 d2 u2 p2 : Nat}
    (hm : RC m d1 u1 p1) (hf : ∀ a, RC (f a) d2 u2 p2) :
    RC (mbind m f) (d1 + d2) (u1 + u2) (p1 + p2) := by
  intro s b s' h
  unfold mbind at h
  cases hms : m s with
  | mk r s1 =>
    rw [hms] at h
    cases r with
    | ok a =>
      obtain ⟨e1, e2, e3⟩ := hm s a s1 hms
      obtain ⟨f1, f2, f3⟩ := hf a s1 b s' h
      refine ⟨?_, ?_, ?_⟩ <;> omega
    | error e => cases h

theorem RC_congr {α : Type} {m : M α} {d u p d' u' p' : Nat}
    (h : RC m d u p) (hd : d = d') (hu : u = u') (hp : p = p') :
    RC m d' u' p' := by
  subst hd; subst hu; subst hp; exact h

theorem RC_mpure {α : Type} (a : α) : RC (mpure a) 0 0 0 := by
  intro s b s' h
  cases h
  exact ⟨rfl, rfl, rfl⟩

theorem RC_throwE {α : Type} (e : Err) : RC (throwE e : M α) 0 0 0 := by
  intro s b s' h
  cases h

theorem RC_liftE {α : Type} (r : Except Err α) : RC (liftE r) 0 0 0 := by
  intro s b s' h
  cases r with
  | ok a => cases h; exact ⟨rfl, rfl, rfl⟩
  | error e => cases h

theorem RC_getS : RC getS 0 0 0 := by
  intro s b s' h
  cases h
  exact ⟨rfl, rfl, rfl⟩

/-- A computation whose result-state is a pure function of the input state
that appends non-download/upload events and keeps the position. -/
theorem RC_of_state {α : Type} {m : M α}
    (h : ∀ s, ∃ δ, (∀ e ∈ δ, isDl e = false ∧ isUp e = false) ∧
      ((m s).2).world.events = s.world.events ++ δ ∧ ((m s).2).pos = s.pos) :
    RC m 0 0 0 := by
  intro s a s' heq
  obtain ⟨δ, hδ, hev, hpos⟩ := h s
  rw [heq] at hev hpos
  have hdl : δ.countP isDl = 0 := by
    rw [List.countP_eq_zero]
    intro e he
    simp [(hδ e he).1]
  have hup : δ.countP isUp = 0 := by
    rw [List.countP_eq_zero]
    intro e he
    simp [(hδ e he).2]
  have hev2 : s'.world.events = s.world.events ++ δ := hev
  have hpos2 : s'.pos = s.pos := hpos
  refine ⟨?_, ?_, by simpa using hpos2⟩
  · simp [cntDl, hev2, List.countP_append, hdl]
  · simp [cntUp, hev2, List.countP_append, hup]

theorem RC_stateGet (k : String) : RC (stateGet k) 0 0 0 := by
  intro s a s' h
  unfold DashboardsPy.stateGet at h
  cases hl : lookupA s.state k with
  | some v => rw [hl] at h; cases h; exact ⟨rfl, rfl, rfl⟩
  | none => rw [hl] at h; cases h

theorem RC_stateSet (k : String) (v : Nat) : RC (stateSet k v) 0 0 0 := by
  intro s a s' h
  cases h
  exact ⟨rfl, rfl, rfl⟩

theorem RC_emit (e : Event) (h1 : isDl e = false) (h2 : isUp e = false) :
    RC (emit e) 0 0 0 :=
  RC_of_state fun s => ⟨[e], by simp [h1, h2], rfl, rfl⟩

theorem RC_widget_options (q : SimpleQuery) : RC (_get_widget_options q) 0 0 1 := by
  intro s a s' h
  have h2 : s' = { s with pos := s.pos + 1 } := by
    have := widget_options_state q s
    rw [h] at this
    exact this
  subst h2
  exact ⟨rfl, rfl, rfl⟩

theorem RC_ws_download : RC ws_download 1 0 0 := by
  intro s a s' h
  cases hb : s.world.blob with
  | good d =>
    rw [ws_download_good hb] at h
    cases h
    exact ⟨by simp [cntDl, List.countP_append, isDl], by simp [cntUp, List.countP_append, isUp], rfl⟩
  | missing => rw [ws_download_missing hb] at h; cases h
  | corrupt =>
    have : ws_download s = (.error .jsonErr,
        { s with world := { s.world with events := s.world.events ++ [.download] } }) := by
      simp [ws_download, emit, getS, mbind, mpure, throwE, hb]
    rw [this] at h; cases h
  | failOther code =>
    have : ws_download s = (.error (.dbErr code),
        { s with world := { s.world with events := s.world.events ++ [.download] } }) := by
      simp [ws_download, emit, getS, mbind, mpure, throwE, hb]
    rw [this] at h; cases h

theorem countP_single_false {p : Event → Bool} {e : Event} (h : p e = false) :
    List.countP p [e] = 0 := by simp [h]

theorem RC_ws_upload (d : List (String × Nat)) : RC (ws_upload d) 0 1 0 := by
  intro s a s' h
  rw [ws_upload_run] at h
  cases h
  exact ⟨by simp [cntDl, List.countP_append, isDl],
    by simp [cntUp, List.countP_append, isUp], rfl⟩

/-- `Tame m`: on every input — success or failure — `m` only appends
non-download/non-upload events and keeps the position counter.  Unlike `RC`
this is a total property, so it survives the exception handlers. -/
def Tame {α : Type} (m : M α) : Prop :=
  ∀ s, (∃ δ, (∀ e ∈ δ, isDl e = false ∧ isUp e = false) ∧
    ((m s).2).world.events = s.world.events ++ δ) ∧ ((m s).2).pos = s.pos

theorem Tame_RC {α : Type} {m : M α} (h : Tame m) : RC m 0 0 0 := by
  refine RC_of_state fun s => ?_
  obtain ⟨⟨δ, h1, h2⟩, h3⟩ := h s
  exact ⟨δ, h1, h2, h3⟩

theorem Tame_mbind {α β : Type} {m : M α} {f : α → M β}
    (hm : Tame m) (hf : ∀ a, Tame (f a)) : Tame (mbind m f) := by
  intro s
  obtain ⟨⟨δ1, hδ1, hev1⟩, hp1⟩ := hm s
  unfold mbind
  cases hms : m s with
  | mk r s1 =>
    rw [hms] at hev1 hp1
    cases r with
    | error e => exact ⟨⟨δ1, hδ1, hev1⟩, hp1⟩
    | ok a =>
      obtain ⟨⟨δ2, hδ2, hev2⟩, hp2⟩ := hf a s1
      refine ⟨⟨δ1 ++ δ2, ?_, ?_⟩, ?_⟩
      · intro e he
        rcases List.mem_append.mp he with h | h
        · exact hδ1 e h
        · exact hδ2 e h
      · rw [hev2, hev1, List.append_assoc]
      · rw [hp2, hp1]

theorem Tame_mpure {α : Type} (a : α) : Tame (mpure a) := by
  intro s
  exact ⟨⟨[], by simp, by simp [mpure]⟩, rfl⟩

theorem Tame_throwE {α : Type} (e : Err) : Tame (throwE e : M α) := by
  intro s
  exact ⟨⟨[], by simp, by simp [throwE]⟩, rfl⟩

theorem Tame_liftE {α : Type} (r : Except Err α) : Tame (liftE r) := by
  intro s
  exact ⟨⟨[], by simp, by simp [liftE]⟩, rfl⟩

theorem Tame_getS : Tame getS := by
  intro s
  exact ⟨⟨[], by simp, by simp [getS]⟩, rfl⟩

theorem Tame_modifyS {f : St → St}
    (hf : ∀ s, (f s).world.events = s.world.events ∧ (f s).pos = s.pos) :
    Tame (modifyS f) := by
  intro s
  exact ⟨⟨[], by simp, by simpa using (hf s).1⟩, (hf s).2⟩

theorem Tame_emit (e : Event) (h1 : isDl e = false) (h2 : isUp e = false) :
    Tame (emit e) := by
  intro s
  exact ⟨⟨[e], by simp [h1, h2], by simp [emit]⟩, rfl⟩

theorem Tame_stateGet (k : String) : Tame (stateGet k) := by
  intro s
  refine ⟨⟨[], by simp, ?_⟩, ?_⟩ <;>
    (unfold DashboardsPy.stateGet; cases lookupA s.state k <;> simp)

theorem Tame_stateSet (k : String) (v : Nat) : Tame (stateSet k v) :=
  Tame_modifyS fun _ => ⟨rfl, rfl⟩

theorem Tame_tryCatchDB {α : Type} {body : M α} {h : String → M α}
    (hb : Tame body) (hh : ∀ c, Tame (h c)) : Tame (tryCatchDB body h) := by
  intro s
  obtain ⟨⟨δ1, hδ1, hev1⟩, hp1⟩ := hb s
  unfold tryCatchDB
  cases hbs : body s with
  | mk r s1 =>
    rw [hbs] at hev1 hp1
    cases r with
    | ok a => exact ⟨⟨δ1, hδ1, hev1⟩, hp1⟩
    | error e =>
      cases e with
      | dbErr c =>
        obtain ⟨⟨δ2, hδ2, hev2⟩, hp2⟩ := hh c s1
        refine ⟨⟨δ1 ++ δ2, ?_, ?_⟩, ?_⟩
        · intro e he
          rcases List.mem_append.mp he with h' | h'
          · exact hδ1 e h'
          · exact hδ2 e h'
        · rw [hev2, hev1, List.append_assoc]
        · rw [hp2, hp1]
      | jsonErr => exact ⟨⟨δ1, hδ1, hev1⟩, hp1⟩
      | valErr => exact ⟨⟨δ1, hδ1, hev1⟩, hp1⟩
      | keyErr m => exact ⟨⟨δ1, hδ1, hev1⟩, hp1⟩
      | typeErr => exact ⟨⟨δ1, hδ1, hev1⟩, hp1⟩
      | synErr m => exact ⟨⟨δ1, hδ1, hev1⟩, hp1⟩
      | stopIter => exact ⟨⟨δ1, hδ1, hev1⟩, hp1⟩
      | assertErr m => exact ⟨⟨δ1, hδ1, hev1⟩, hp1⟩

theorem Tame_ws_mkdirs : Tame ws_mkdirs :=
  Tame_emit .mkdirs rfl rfl

theorem Tame_ws_get_status : Tame ws_get_status := by
  intro s
  rw [ws_get_status_run]
  exact ⟨⟨[.getStatus], by simp [isDl, isUp], rfl⟩, rfl⟩

theorem Tame_ws_perm_set : Tame ws_perm_set := by
  intro s
  rw [ws_perm_set_run]
  exact ⟨⟨[.permSet], by simp [isDl, isUp], rfl⟩, rfl⟩

theorem Tame_ws_queries_get (id : Nat) : Tame (ws_queries_get id) := by
  intro s
  refine ⟨⟨[.queryGet id], by simp [isDl, isUp], ?_⟩, ?_⟩ <;>
    (simp only [ws_queries_get, emit, getS, mbind, mpure, throwE, bind_is_mbind,
      pure_is_mpure]; split <;> rfl)

theorem Tame_ws_queries_create (p : String) (d : Nat) (n t : String) :
    Tame (ws_queries_create p d n t) := by
  intro s
  rw [ws_queries_create_run]
  exact ⟨⟨[.queryCreate s.world.nextId], by simp [isDl, isUp], rfl⟩, rfl⟩

theorem Tame_ws_queries_update (id d : Nat) (n t : String) :
    Tame (ws_queries_update id d n t) := by
  intro s
  rw [ws_queries_update_run]
  exact ⟨⟨[.queryUpdate id], by simp [isDl, isUp], rfl⟩, rfl⟩

theorem Tame_ws_queries_delete (id : Nat) : Tame (ws_queries_delete id) := by
  intro s
  refine ⟨⟨[.queryDelete id], by simp [isDl, isUp], ?_⟩, ?_⟩ <;>
    (simp only [ws_queries_delete]; split <;> rfl)

theorem Tame_ws_viz_create (qid : Nat) : Tame (ws_viz_create qid) := by
  intro s
  rw [ws_viz_create_run]
  exact ⟨⟨[.vizCreate s.world.nextId], by simp [isDl, isUp], rfl⟩, rfl⟩

theorem Tame_ws_viz_update (id : Nat) : Tame (ws_viz_update id) := by
  intro s
  rw [ws_viz_update_run]
  exact ⟨⟨[.vizUpdate id], by simp [isDl, isUp], rfl⟩, rfl⟩

theorem Tame_ws_viz_delete (id : Nat) : Tame (ws_viz_delete id) := by
  intro s
  refine ⟨⟨[.vizDelete id], by simp [isDl, isUp], ?_⟩, ?_⟩ <;>
    (simp only [ws_viz_delete]; split <;> rfl)

theorem Tame_ws_dashboards_create (n p : String) : Tame (ws_dashboards_create n p) := by
  intro s
  rw [ws_dashboards_create_run]
  exact ⟨⟨[.dashCreate s.world.nextId], by simp [isDl, isUp], rfl⟩, rfl⟩

theorem Tame_ws_dashboards_get (id : Nat) : Tame (ws_dashboards_get id) := by
  intro s
  cases hl : lookupA s.world.dashWidgets id with
  | some ws0 =>
    rw [ws_dashboards_get_run id s hl]
    exact ⟨⟨[.dashGet id], by simp [isDl, isUp], rfl⟩, rfl⟩
  | none =>
    have heq : ws_dashboards_get id s = (.error (.dbErr "RESOURCE_DOES_NOT_EXIST"),
        { s with world := { s.world with events := s.world.events ++ [.dashGet id] } }) := by
      simp [ws_dashboards_get, emit, getS, mbind, mpure, throwE, hl]
    rw [heq]
    exact ⟨⟨[.dashGet id], by simp [isDl, isUp], rfl⟩, rfl⟩

theorem Tame_ws_widgets_create (dashId : Nat) (row : Int) (vizId : Nat) :
    Tame (ws_widgets_create dashId row vizId) := by
  intro s
  cases hl : lookupA s.world.dashWidgets dashId with
  | some ws0 =>
    rw [ws_widgets_create_run dashId row vizId s hl]
    exact ⟨⟨[.widgetCreate s.world.nextId], by simp [isDl, isUp], rfl⟩, rfl⟩
  | none =>
    have heq : ws_widgets_create dashId row vizId s =
        (.error (.dbErr "RESOURCE_DOES_NOT_EXIST"),
          { s with world := { s.world with
              events := s.world.events ++ [.widgetCreate s.world.nextId] } }) := by
      simp [ws_widgets_create, emit, getS, modifyS, mbind, mpure, throwE, hl]
    rw [heq]
    exact ⟨⟨[.widgetCreate s.world.nextId], by simp [isDl, isUp], rfl⟩, rfl⟩

theorem Tame_ws_widgets_delete (id : Nat) : Tame (ws_widgets_delete id) := by
  intro s
  by_cases h : id ∈ s.world.liveWidgets
  · rw [ws_widgets_delete_run id s h]
    exact ⟨⟨[.widgetDelete id], by simp [isDl, isUp], rfl⟩, rfl⟩
  · have heq : ws_widgets_delete id s = (.error (.dbErr "RESOURCE_DOES_NOT_EXIST"),
        { s with world := { s.world with
            events := s.world.events ++ [.widgetDelete id] } }) := by
      simp [ws_widgets_delete, h]
    rw [heq]
    exact ⟨⟨[.widgetDelete id], by simp [isDl, isUp], rfl⟩, rfl⟩

theorem Tame_ws_data_sources_list : Tame ws_data_sources_list := by
  intro s
  rw [ws_data_sources_list_run]
  exact ⟨⟨[.dataSourcesList], by simp [isDl, isUp], rfl⟩, rfl⟩

theorem Tame_ws_warehouses_list : Tame ws_warehouses_list := by
  intro s
  rw [ws_warehouses_list_run]
  exact ⟨⟨[.warehousesList], by simp [isDl, isUp], rfl⟩, rfl⟩

theorem Tame_sweepCheck : ∀ st, Tame (sweepCheck st)
  | [] => Tame_mpure []
  | (k, v) :: rest => by
    cases h : unpack2 (pySplitColon k) with
    | none =>
      simp only [sweepCheck, h]
      exact Tame_throwE _
    | some parts =>
      simp only [sweepCheck, h]
      by_cases h1 : k = "dashboard_id"
      · simp only [if_pos h1]
        exact Tame_sweepCheck rest
      · simp only [if_neg h1]
        by_cases h2 : parts.2 ≠ "query_id"
        · simp only [if_pos h2]
          exact Tame_sweepCheck rest
        · simp only [if_neg h2]
          exact Tame_mbind
            (Tame_tryCatchDB
              (Tame_mbind (Tame_ws_queries_get v) fun _ => Tame_mpure _)
              fun _ => Tame_mpure _)
            fun dead => Tame_mbind (Tame_sweepCheck rest) fun tail => Tame_mpure _

/-- `DlOne m`: on every input — success or failure — `m` emits exactly one
download (first), no upload, and keeps the position counter. -/
def DlOne {α : Type} (m : M α) : Prop :=
  ∀ s, (∃ δ, (∀ e ∈ δ, isDl e = false ∧ isUp e = false) ∧
    ((m s).2).world.events = s.world.events ++ .download :: δ) ∧ ((m s).2).pos = s.pos

theorem DlOne_ws_download : DlOne ws_download := by
  intro s
  cases hb : s.world.blob with
  | good d =>
    rw [ws_download_good hb]
    exact ⟨⟨[], by simp, rfl⟩, rfl⟩
  | missing =>
    rw [ws_download_missing hb]
    exact ⟨⟨[], by simp, rfl⟩, rfl⟩
  | corrupt =>
    have heq : ws_download s = (.error .jsonErr,
        { s with world := { s.world with events := s.world.events ++ [.download] } }) := by
      simp [ws_download, emit, getS, mbind, mpure, throwE, hb]
    rw [heq]
    exact ⟨⟨[], by simp, rfl⟩, rfl⟩
  | failOther code =>
    have heq : ws_download s = (.error (.dbErr code),
        { s with world := { s.world with events := s.world.events ++ [.download] } }) := by
      simp [ws_download, emit, getS, mbind, mpure, throwE, hb]
    rw [heq]
    exact ⟨⟨[], by simp, rfl⟩, rfl⟩

theorem DlOne_mbind_tame {α β : Type} {m : M α} {f : α → M β}
    (hm : DlOne m) (hf : ∀ a, Tame (f a)) : DlOne (mbind m f) := by
  intro s
  obtain ⟨⟨δ1, hδ1, hev1⟩, hp1⟩ := hm s
  unfold mbind
  cases hms : m s with
  | mk r s1 =>
    rw [hms] at hev1 hp1
    cases r with
    | error e => exact ⟨⟨δ1, hδ1, hev1⟩, hp1⟩
    | ok a =>
      obtain ⟨⟨δ2, hδ2, hev2⟩, hp2⟩ := hf a s1
      refine ⟨⟨δ1 ++ δ2, ?_, ?_⟩, ?_⟩
      · intro e he
        rcases List.mem_append.mp he with h' | h'
        · exact hδ1 e h'
        · exact hδ2 e h'
      · rw [hev2, hev1]
        simp [List.append_assoc]
      · rw [hp2, hp1]

theorem DlOne_tryCatch2 {α : Type} {body : M α} {hdb : String → M α} {hjson : M α}
    (hb : DlOne body) (hd : ∀ c, Tame (hdb c)) (hj : Tame hjson) :
    DlOne (tryCatch2 body hdb hjson) := by
  intro s
  obtain ⟨⟨δ1, hδ1, hev1⟩, hp1⟩ := hb s
  unfold tryCatch2
  cases hbs : body s with
  | mk r s1 =>
    rw [hbs] at hev1 hp1
    have hcomp : ∀ (k : M α), Tame k →
        (∃ δ, (∀ e ∈ δ, isDl e = false ∧ isUp e = false) ∧
          ((k s1).2).world.events = s.world.events ++ .download :: δ) ∧
        ((k s1).2).pos = s.pos := by
      intro k hk
      obtain ⟨⟨δ2, hδ2, hev2⟩, hp2⟩ := hk s1
      refine ⟨⟨δ1 ++ δ2, ?_, ?_⟩, ?_⟩
      · intro e he
        rcases List.mem_append.mp he with h' | h'
        · exact hδ1 e h'
        · exact hδ2 e h'
      · rw [hev2, hev1]
        simp [List.append_assoc]
      · rw [hp2, hp1]
    cases r with
    | ok a => exact ⟨⟨δ1, hδ1, hev1⟩, hp1⟩
    | error e =>
      cases e with
      | dbErr c => exact hcomp (hdb c) (hd c)
      | jsonErr => exact hcomp hjson hj
      | valErr => exact ⟨⟨δ1, hδ1, hev1⟩, hp1⟩
      | keyErr m => exact ⟨⟨δ1, hδ1, hev1⟩, hp1⟩
      | typeErr => exact ⟨⟨δ1, hδ1, hev1⟩, hp1⟩
      | synErr m => exact ⟨⟨δ1, hδ1, hev1⟩, hp1⟩
      | stopIter => exact ⟨⟨δ1, hδ1, hev1⟩, hp1⟩
      | assertErr m => exact ⟨⟨δ1, hδ1, hev1⟩, hp1⟩

theorem DlOne_loadBody : DlOne loadBody :=
  DlOne_mbind_tame DlOne_ws_download fun d =>
    Tame_mbind (Tame_modifyS fun _ => ⟨rfl, rfl⟩) fun _ =>
      Tame_mbind Tame_getS fun s =>
        Tame_mbind (Tame_sweepCheck s.state) fun _ =>
          Tame_modifyS fun _ => ⟨rfl, rfl⟩

theorem DlOne_installed_query_state : DlOne _installed_query_state :=
  DlOne_mbind_tame
    (DlOne_tryCatch2 DlOne_loadBody
      (fun c => by
        by_cases h : c ≠ "RESOURCE_DOES_NOT_EXIST"
        · simp only [if_pos h]
          exact Tame_throwE _
        · simp only [if_neg h]
          exact Tame_ws_mkdirs)
      (Tame_modifyS fun _ => ⟨rfl, rfl⟩))
    fun _ => Tame_mbind Tame_ws_get_status fun oid => Tame_mpure _

theorem DlOne_RC {α : Type} {m : M α} (h : DlOne m) : RC m 1 0 0 := by
  intro s a s' heq
  obtain ⟨⟨δ, hδ, hev⟩, hpos⟩ := h s
  rw [heq] at hev hpos
  have hdl : δ.countP isDl = 0 := by
    rw [List.countP_eq_zero]
    intro e he
    simp [(hδ e he).1]
  have hup : δ.countP isUp = 0 := by
    rw [List.countP_eq_zero]
    intro e he
    simp [(hδ e he).2]
  have hev2 : s'.world.events = s.world.events ++ .download :: δ := hev
  have hpos2 : s'.pos = s.pos := hpos
  refine ⟨?_, ?_, by simpa using hpos2⟩
  · simp [cntDl, hev2, List.countP_append, List.countP_cons, hdl, isDl]
  · simp [cntUp, hev2, List.countP_append, List.countP_cons, hup, isUp]

theorem RC_installed_query_state : RC _installed_query_state 1 0 0 :=
  DlOne_RC DlOne_installed_query_state

theorem Tame_destr {kind : String} {destr : Nat → M Unit}
    (h : destructorFor kind = some destr) (v : Nat) : Tame (destr v) := by
  unfold destructorFor at h
  by_cases h1 : kind = "query_id"
  · rw [if_pos h1] at h
    cases h
    exact Tame_ws_queries_delete v
  · rw [if_neg h1] at h
    by_cases h2 : kind = "viz_id"
    · rw [if_pos h2] at h
      cases h
      exact Tame_ws_viz_delete v
    · rw [if_neg h2] at h
      by_cases h3 : kind = "widget_id"
      · rw [if_pos h3] at h
        cases h
        exact Tame_ws_widgets_delete v
      · rw [if_neg h3] at h
        cases h

theorem Tame_storeLoop (desired : List String) :
    ∀ st, Tame (storeLoop desired st)
  | [] => Tame_mpure []
  | (k, v) :: rest => by
    by_cases hk : k ∈ desired
    · simp only [storeLoop, if_pos hk]
      exact Tame_mbind (Tame_storeLoop desired rest) fun ns => Tame_mpure _
    · simp only [storeLoop, if_neg hk]
      cases h : unpack2 (pySplitColon k) with
      | none => exact Tame_throwE _
      | some parts =>
        simp only []
        cases hd : destructorFor parts.2 with
        | none => exact Tame_storeLoop desired rest
        | some destr =>
          exact Tame_mbind
            (Tame_tryCatchDB (Tame_destr hd v) fun _ => Tame_mpure _)
            fun _ => Tame_storeLoop desired rest

theorem Tame_deleteWidgetsLoop : ∀ ws, Tame (deleteWidgetsLoop ws)
  | [] => Tame_mpure ()
  | w :: ws =>
    Tame_mbind (Tame_ws_widgets_delete w) fun _ => Tame_deleteWidgetsLoop ws

theorem Tame_install_dashboard (n p r : String) : Tame (_install_dashboard n p r) :=
  Tame_mbind Tame_getS fun s => by
    cases hl : lookupA s.state (r ++ ":dashboard_id") with
    | some did =>
      exact Tame_mbind (Tame_ws_dashboards_get did) fun widgets =>
        Tame_deleteWidgetsLoop widgets
    | none =>
      exact Tame_mbind (Tame_ws_dashboards_create n p) fun did =>
        Tame_mbind Tame_ws_perm_set fun _ => Tame_stateSet _ did

theorem Tame_install_viz (q : SimpleQuery) : Tame (_install_viz q) :=
  Tame_mbind (Tame_liftE _) fun _ =>
    Tame_mbind Tame_getS fun s => by
      cases hl : lookupA s.state q.viz_key with
      | some vid => exact Tame_ws_viz_update vid
      | none =>
        exact Tame_mbind (Tame_stateGet _) fun qid =>
          Tame_mbind (Tame_ws_viz_create qid) fun vid => Tame_stateSet _ vid

theorem Tame_install_query (q : SimpleQuery) (n : String) (d : Nat) (p : String) :
    Tame (_install_query q n d p) :=
  Tame_mbind Tame_getS fun s => by
    cases hl : lookupA s.state q.query_key with
    | some qid => exact Tame_ws_queries_update qid d _ _
    | none =>
      exact Tame_mbind (Tame_ws_queries_create p d _ _) fun qid =>
        Tame_mbind Tame_ws_perm_set fun _ => Tame_stateSet _ qid

theorem Tame_dashboard_data_source : Tame _dashboard_data_source :=
  Tame_mbind Tame_ws_data_sources_list fun ds =>
    Tame_mbind Tame_ws_warehouses_list fun whs =>
      Tame_mbind Tame_getS fun s => by
        cases s.warehouseId with
        | some w =>
          simp only []
          cases lookupA ds w with
          | some d => exact Tame_mpure d
          | none => exact Tame_throwE _
        | none =>
          simp only []
          cases whs with
          | nil => exact Tame_throwE _
          | cons w t =>
            simp only []
            cases lookupA ds w with
            | some d => exact Tame_mpure d
            | none => exact Tame_throwE _

theorem desired_queries_length (cb : Option (String → String)) (fs : List QueryInput)
    (r : String) : (_desired_queries cb fs r).length = fs.length := by
  simp [_desired_queries]

theorem RC_install_widget (q : SimpleQuery) (r : String) :
    RC (_install_widget q r) 0 0 1 :=
  RC_congr
    (RC_bind (Tame_RC (Tame_stateGet _)) fun did =>
      RC_bind (RC_widget_options q) fun wo =>
        RC_bind (Tame_RC (Tame_stateGet _)) fun vid =>
          RC_bind (Tame_RC (Tame_ws_widgets_create did wo.row vid)) fun wid =>
            Tame_RC (Tame_stateSet _ wid))
    (by norm_num) (by norm_num) (by norm_num)

theorem RC_installQueriesLoop (n : String) (d : Nat) (p r : String) :
    ∀ qs, RC (installQueriesLoop n d p r qs) 0 0 qs.length
  | [] => RC_mpure ()
  | q :: t =>
    RC_congr
      (RC_bind (Tame_RC (Tame_install_query q n d p)) fun _ =>
        RC_bind (Tame_RC (Tame_install_viz q)) fun _ =>
          RC_bind (RC_install_widget q r) fun _ =>
            RC_installQueriesLoop n d p r t)
      (by norm_num) (by norm_num) (by simp only [List.length_cons]; omega)

theorem RC_groupStep (g : GroupInput) : RC (groupStep g) 1 0 g.queries.length := by
  show RC (mbind getS fun s =>
    mbind _installed_query_state fun parent_folder_id =>
      mbind _dashboard_data_source fun data_source_id =>
        mbind (_install_dashboard (s.namePfx ++ " " ++ pyTitle g.step ++ " (" ++ pyTitle g.sub ++ ")")
            parent_folder_id (refOf g)) fun _ =>
          mbind (installQueriesLoop (s.namePfx ++ " " ++ pyTitle g.step ++ " (" ++ pyTitle g.sub ++ ")")
              data_source_id parent_folder_id (refOf g)
              (_desired_queries s.queryTextCb g.queries (refOf g))) fun _ =>
            mbind (stateGet (refOf g ++ ":dashboard_id")) fun did =>
              mpure (refOf g, _desired_queries s.queryTextCb g.queries (refOf g), did))
    1 0 g.queries.length
  exact RC_congr
    (RC_bind RC_getS fun s =>
      RC_bind RC_installed_query_state fun parent =>
        RC_bind (Tame_RC Tame_dashboard_data_source) fun dsid =>
          RC_bind (Tame_RC (Tame_install_dashboard _ parent _)) fun _ =>
            RC_bind
              (RC_congr
                (RC_installQueriesLoop _ dsid parent _
                  (_desired_queries s.queryTextCb g.queries (refOf g)))
                rfl rfl (desired_queries_length _ _ _)) fun _ =>
              RC_bind (Tame_RC (Tame_stateGet _)) fun did => RC_mpure _)
    (by norm_num) (by norm_num) (by norm_num)

theorem RC_groupsLoop : ∀ (gs : List GroupInput) (dash : List (String × Nat))
    (qpd : List (String × List SimpleQuery)),
    RC (groupsLoop gs dash qpd) gs.length 0 (gs.map fun g => g.queries.length).sum
  | [], dash, qpd => RC_mpure (dash, qpd)
  | g :: t, dash, qpd =>
    RC_congr
      (RC_bind (RC_groupStep g) fun r => RC_groupsLoop t _ _)
      (by simp only [List.length_cons]; omega)
      (by norm_num)
      (by simp only [List.map_cons, List.sum_cons])

theorem RC_store_query_state (queries : List (String × List SimpleQuery)) :
    RC (_store_query_state queries) 0 1 0 := by
  show RC (mbind getS fun s =>
    mbind (storeLoop (desiredKeys queries) s.state) fun new_state =>
      ws_upload new_state) 0 1 0
  exact RC_congr
    (RC_bind RC_getS fun s =>
      RC_bind (Tame_RC (Tame_storeLoop (desiredKeys queries) s.state)) fun ns =>
        RC_ws_upload ns)
    (by norm_num) (by norm_num) (by norm_num)

theorem RC_create_dashboards (gs : List GroupInput) :
    RC (create_dashboards gs) gs.length 1 (gs.map fun g => g.queries.length).sum :=
  RC_congr
    (RC_bind (RC_groupsLoop gs [] []) fun r =>
      RC_bind (RC_store_query_state r.2) fun _ => RC_mpure r.1)
    (by omega) (by norm_num) (by omega)

theorem mbind_ok_inv {α β : Type} {m : M α} {f : α → M β} {s s' : St} {b : β}
    (h : mbind m f s = (.ok b, s')) :
    ∃ a s1, m s = (.ok a, s1) ∧ f a s1 = (.ok b, s') := by
  unfold mbind at h
  cases hms : m s with
  | mk r s1 =>
    rw [hms] at h
    cases r with
    | ok a => exact ⟨a, s1, rfl, h⟩
    | error e => cases h

theorem store_upload_last (queries : List (String × List SimpleQuery)) (s : St)
    (a : Unit) (s' : St) (h : _store_query_state queries s = (.ok a, s')) :
    ∃ d pre, s'.world.events = pre ++ [.upload d] ∧ s'.world.blob = .good d := by
  have h' : mbind getS (fun s0 =>
      mbind (storeLoop (desiredKeys queries) s0.state) fun ns => ws_upload ns) s
      = (.ok a, s') := h
  obtain ⟨s0, s1, h1, h2⟩ := mbind_ok_inv h'
  obtain ⟨ns, s2, h3, h4⟩ := mbind_ok_inv h2
  rw [ws_upload_run] at h4
  injection h4 with ha hs
  subst hs
  exact ⟨ns, s2.world.events, rfl, rfl⟩

theorem create_dashboards_upload_last (gs : List GroupInput) (s : St)
    (a : List (String × Nat)) (s' : St)
    (h : create_dashboards gs s = (.ok a, s')) :
    ∃ d pre, s'.world.events = pre ++ [.upload d] ∧ s'.world.blob = .good d := by
  have h' : mbind (groupsLoop gs [] []) (fun r =>
      mbind (_store_query_state r.2) fun _ => mpure r.1) s = (.ok a, s') := h
  obtain ⟨r, s1, h1, h2⟩ := mbind_ok_inv h'
  obtain ⟨u, s2, h3, h4⟩ := mbind_ok_inv h2
  have h5 : s2 = s' := congrArg Prod.snd h4
  exact h5 ▸ store_upload_last r.2 s1 u s2 h3


/-- A dashboard group with no query files under it. -/
def gA : GroupInput := { step := "a", sub := "b", queries := [] }

/-- A second dashboard group with no query files under it. -/
def gB : GroupInput := { step := "c", sub := "d", queries := [] }

theorem gqs_nil (cb : Option (String → String)) (g : GroupInput)
    (h : g.queries = []) : gqs cb g = [] := by
  simp [gqs, _desired_queries, h]

/-- The fresh two-empty-group run, fully described. -/
theorem two_group_run :
    create_dashboards [gA, gB] baseSt =
      (.ok (g1Dash baseSt.queryTextCb [gA, gB] baseSt.world.nextId),
        { baseSt with
          state := g1State baseSt.queryTextCb [gA, gB] baseSt.world.nextId
          pos := g1Pos baseSt.queryTextCb [gA, gB] baseSt.pos
          world := { baseSt.world with
            blob := .good (g1State baseSt.queryTextCb [gA, gB] baseSt.world.nextId)
            nextId := g1Next baseSt.queryTextCb [gA, gB] baseSt.world.nextId
            liveQueries := baseSt.world.liveQueries
              ++ g1LiveQ baseSt.queryTextCb [gA, gB] baseSt.world.nextId
            liveViz := baseSt.world.liveViz
              ++ g1LiveV baseSt.queryTextCb [gA, gB] baseSt.world.nextId
            liveWidgets := baseSt.world.liveWidgets
              ++ g1LiveW baseSt.queryTextCb [gA, gB] baseSt.world.nextId
            dashWidgets := baseSt.world.dashWidgets
              ++ g1DashW baseSt.queryTextCb [gA, gB] baseSt.world.nextId
            events := baseSt.world.events
              ++ g1Events baseSt.queryTextCb [gA, gB] baseSt.world.nextId
              ++ [.upload (g1State baseSt.queryTextCb [gA, gB] baseSt.world.nextId)] } }) := by
  refine create_dashboards_fresh [gA, gB] baseSt 7 99 rfl rfl rfl (by decide) (by decide)
    ?_ (by decide) (by decide)
  intro g hg q hq
  simp only [List.mem_cons, List.not_mem_nil, or_false] at hg
  rcases hg with h | h <;> (subst h; simp [gqs_nil, gA, gB] at hq)

/-- The fresh one-empty-group run, fully described. -/
theorem one_group_run :
    create_dashboards [gA] baseSt =
      (.ok (g1Dash baseSt.queryTextCb [gA] baseSt.world.nextId),
        { baseSt with
          state := g1State baseSt.queryTextCb [gA] baseSt.world.nextId
          pos := g1Pos baseSt.queryTextCb [gA] baseSt.pos
          world := { baseSt.world with
            blob := .good (g1State baseSt.queryTextCb [gA] baseSt.world.nextId)
            nextId := g1Next baseSt.queryTextCb [gA] baseSt.world.nextId
            liveQueries := baseSt.world.liveQueries
              ++ g1LiveQ baseSt.queryTextCb [gA] baseSt.world.nextId
            liveViz := baseSt.world.liveViz
              ++ g1LiveV baseSt.queryTextCb [gA] baseSt.world.nextId
            liveWidgets := baseSt.world.liveWidgets
              ++ g1LiveW baseSt.queryTextCb [gA] baseSt.world.nextId
            dashWidgets := baseSt.world.dashWidgets
              ++ g1DashW baseSt.queryTextCb [gA] baseSt.world.nextId
            events := baseSt.world.events
              ++ g1Events baseSt.queryTextCb [gA] baseSt.world.nextId
              ++ [.upload (g1State baseSt.queryTextCb [gA] baseSt.world.nextId)] } }) := by
  refine create_dashboards_fresh [gA] baseSt 7 99 rfl rfl rfl (by decide) (by decide)
    ?_ (by decide) (by decide)
  intro g hg q hq
  simp only [List.mem_cons, List.not_mem_nil, or_false] at hg
  subst hg
  simp [gqs_nil, gA] at hq

/-- C1 (amended): on every successful run of `create_dashboards` the state
blob is downloaded exactly once per dashboard group — it is re-downloaded by
`_installed_query_state` inside the per-group loop, not loaded once per run —
while the blob is written back exactly once, by the final upload, which is the
last remote event of the run and leaves the blob holding the uploaded
state. -/
theorem c1_state_download_per_group (gs : List GroupInput) (s : St)
    (a : List (String × Nat)) (s' : St)
    (h : create_dashboards gs s = (.ok a, s')) :
    cntDl s' = cntDl s + gs.length ∧ cntUp s' = cntUp s + 1 ∧
    ∃ d pre, s'.world.events = pre ++ [.upload d] ∧ s'.world.blob = .good d := by
  obtain ⟨h1, h2, h3⟩ := RC_create_dashboards gs s a s' h
  exact ⟨h1, h2, create_dashboards_upload_last gs s a s' h⟩

/-- Witness for C1: the amended theorem applied to a one-group run from the
fresh state. -/
theorem c1_state_download_per_group_witness :
    cntDl (create_dashboards [gA] baseSt).2 = cntDl baseSt + 1 ∧
    cntUp (create_dashboards [gA] baseSt).2 = cntUp baseSt + 1 ∧
    ∃ d pre, (create_dashboards [gA] baseSt).2.world.events = pre ++ [.upload d] ∧
      (create_dashboards [gA] baseSt).2.world.blob = .good d := by
  rw [one_group_run]
  exact c1_state_download_per_group [gA] baseSt _ _ one_group_run

/-- C1 counterexample: a successful two-group run downloads the state blob
twice — the blob is re-downloaded between groups, refuting "downloaded at
most once per run". -/
theorem c1_download_once_counterexample :
    (create_dashboards [gA, gB] baseSt).1 = .ok [("a_b", 1), ("c_d", 2)] ∧
    cntDl baseSt = 0 ∧
    cntDl (create_dashboards [gA, gB] baseSt).2 = 2 := by
  refine ⟨?_, by decide, ?_⟩
  · rw [two_group_run]
    decide
  · rw [two_group_run]
    decide

/-- The row values assigned by successive `_get_widget_options` calls, in call
order: the `row` trace of the per-query widget loop. -/
def widgetRows : List SimpleQuery → M (List Int)
  | [] => mpure []
  | q :: t => do
    let wo ← _get_widget_options q
    let rest ← widgetRows t
    mpure (wo.row :: rest)

theorem widget_options_row_default (q : SimpleQuery) (s : St) {wo : WidgetOptions}
    {s' : St} (hrow : lookupA q.widget "row" = none)
    (h : _get_widget_options q s = (.ok wo, s')) :
    wo.row = Int.ofNat (s.pos + 1) ∧ s' = { s with pos := s.pos + 1 } := by
  simp only [_get_widget_options] at h
  cases hc : getIntAttr q.widget "col" 0 with
  | error e => rw [hc] at h; cases h
  | ok col =>
    rw [hc] at h
    have hr : getIntAttr q.widget "row" (Int.ofNat (s.pos + 1)) =
        .ok (Int.ofNat (s.pos + 1)) := by
      unfold getIntAttr
      rw [hrow]
    rw [hr] at h
    cases hx : getIntAttr q.widget "size_x" 3 with
    | error e => rw [hx] at h; cases h
    | ok sx =>
      rw [hx] at h
      cases hy : getIntAttr q.widget "size_y" 3 with
      | error e => rw [hy] at h; cases h
      | ok sy =>
        rw [hy] at h
        injection h with h1 h2
        injection h1 with h1
        subst h1
        subst h2
        exact ⟨rfl, rfl⟩

theorem widgetRows_default : ∀ (qs : List SimpleQuery) (s : St) (rows : List Int)
    (s' : St), (∀ q ∈ qs, lookupA q.widget "row" = none) →
    widgetRows qs s = (.ok rows, s') →
    rows = (List.range' (s.pos + 1) qs.length).map Int.ofNat ∧
      s'.pos = s.pos + qs.length := by
  intro qs
  induction qs with
  | nil =>
    intro s rows s' _ h
    injection h with h1 h2
    injection h1 with h1
    subst h1
    subst h2
    exact ⟨rfl, rfl⟩
  | cons q t ih =>
    intro s rows s' hall h
    have h' : mbind (_get_widget_options q) (fun wo =>
        mbind (widgetRows t) fun rest => mpure (wo.row :: rest)) s = (.ok rows, s') := h
    obtain ⟨wo, s1, h1, h2⟩ := mbind_ok_inv h'
    obtain ⟨rest, s2, h3, h4⟩ := mbind_ok_inv h2
    injection h4 with ha hs
    injection ha with ha
    obtain ⟨hrow, hs1⟩ := widget_options_row_default q s (hall q (by simp)) h1
    subst hs1
    obtain ⟨hrest, hpos⟩ := ih _ rest s2 (fun p hp => hall p (by simp [hp])) h3
    subst ha
    subst hs
    constructor
    · rw [hrow, hrest]
      simp only [List.length_cons, List.range'_succ, List.map_cons]
    · simp only [List.length_cons] at hpos ⊢
      omega

/-- C7: widgets lacking an explicit `row` attribute are assigned the
successive values of one run-wide counter — the rows produced by consecutive
builder calls from position `p` are exactly `p+1, p+2, …`, strictly
increasing — and a successful `create_dashboards` run advances that counter
by the total number of desired queries across all groups, never resetting it
between groups. -/
theorem c7_widget_row_counter (qs : List SimpleQuery) (s : St) (rows : List Int)
    (s' : St) (hrow : ∀ q ∈ qs, lookupA q.widget "row" = none)
    (h : widgetRows qs s = (.ok rows, s')) :
    rows = (List.range' (s.pos + 1) qs.length).map Int.ofNat ∧
    List.Pairwise (fun x y => x < y) rows ∧
    s'.pos = s.pos + qs.length ∧
    (∀ gs s0 a s0', create_dashboards gs s0 = (.ok a, s0') →
      s0'.pos = s0.pos + (gs.map fun g => g.queries.length).sum) := by
  obtain ⟨h1, h2⟩ := widgetRows_default qs s rows s' hrow h
  refine ⟨h1, ?_, h2, fun gs s0 a s0' h0 => (RC_create_dashboards gs s0 a s0' h0).2.2⟩
  rw [h1]
  exact (List.pairwise_lt_range' _ _).map Int.ofNat fun a b hab =>
    Int.ofNat_lt.mpr hab

/-- A query definition with no widget attributes (in particular no explicit
`row`). -/
def qW : SimpleQuery :=
  { dashboard_ref := "r"
    name := "n"
    query := "SELECT 1"
    viz := [("type", "table"), ("columns", "a")]
    widget := [] }

set_option maxHeartbeats 2000000 in
/-- Witness for C7: three row-less widgets from the fresh state receive rows
1, 2, 3. -/
theorem c7_widget_row_counter_witness :
    (∀ q ∈ [qW, qW, qW], lookupA q.widget "row" = none) ∧
    ([1, 2, 3] = (List.range' (baseSt.pos + 1) [qW, qW, qW].length).map Int.ofNat ∧
     List.Pairwise (fun x y => x < y) ([1, 2, 3] : List Int) ∧
     (widgetRows [qW, qW, qW] baseSt).2.pos = baseSt.pos + [qW, qW, qW].length ∧
     (∀ gs s0 a s0', create_dashboards gs s0 = (.ok a, s0') →
       s0'.pos = s0.pos + (gs.map fun g => g.queries.length).sum)) := by
  have hr : ∀ q ∈ [qW, qW, qW], lookupA q.widget "row" = none := by decide
  have h : widgetRows [qW, qW, qW] baseSt =
      (.ok [1, 2, 3], (widgetRows [qW, qW, qW] baseSt).2) := by
    have h1 : (widgetRows [qW, qW, qW] baseSt).1 = .ok [1, 2, 3] := by decide
    exact Prod.ext h1 rfl
  exact ⟨hr, c7_widget_row_counter [qW, qW, qW] baseSt [1, 2, 3]
    (widgetRows [qW, qW, qW] baseSt).2 hr h⟩

end DashboardsPy
